import Mathlib

/-!
# nuGL: a shallow embedding of `src/nuGL.c`

The C functions of `nuGL.c` are translated to Lean functions of the same name.

* `size_t` values are natural numbers reduced modulo `SIZE_MOD = 2 ^ 64` after every
  addition and multiplication.
* Calls into OpenGL and stb_image, the opening of a file and the messages written to
  `stderr` are recorded, in program order, as a list of `Call` events; an argument is
  recorded with the value of the C expression written at the call site, and the `size_t`
  arguments of `glVertexAttribPointer` and `glEnableVertexAttribArray` with the value
  they have after conversion to the 32-bit type of the parameter.
* What those libraries hand back (object names, compile and link status, uniform
  locations, file contents, decoded images) is read from an environment `Env`.
* `malloc`, `realloc` and `memcpy` act on the list of bytes a buffer pointer points to;
  allocation is taken to succeed, as the source takes it.
* A C array is a list read with `getD`; a nullable pointer is an `Option`; variadic
  arguments are a list consumed from the front.
* A function with an unbounded loop takes the number of iterations it may run (`fuel`).
-/

namespace NuGL

/-! ## Machine integers and constants -/

/-- Number of values of a `size_t`. -/
def SIZE_MOD : Nat := 2 ^ 64

/-- Addition of two `size_t` values. -/
def size_add (a b : Nat) : Nat := (a + b) % SIZE_MOD

/-- Multiplication of two `size_t` values. -/
def size_mul (a b : Nat) : Nat := (a * b) % SIZE_MOD

/-- Largest size in bytes of an object (an array or an allocation) on the target. -/
def PTRDIFF_MAX : Nat := 2 ^ 63 - 1

/-- Number of values of a `GLuint`. -/
def GLUINT_MOD : Nat := 2 ^ 32

/-- Largest value of a `GLint` and of a `GLsizei` (both `int`). -/
def GLINT_MAX : Nat := 2 ^ 31 - 1

/-- Conversion of a `size_t` to `GLuint` (`unsigned int`): the low 32 bits. -/
def GLuint_of_size (x : Nat) : Nat := x % GLUINT_MOD

/-- Conversion of a `size_t` to `GLint` or `GLsizei` (`int`): the low 32 bits read as a
two's complement number. -/
def GLint_of_size (x : Nat) : Int :=
  if x % GLUINT_MOD ≤ GLINT_MAX then ((x % GLUINT_MOD : Nat) : Int)
  else ((x % GLUINT_MOD : Nat) : Int) - ((GLUINT_MOD : Nat) : Int)

def GL_FALSE : Nat := 0
def GL_TRIANGLES : Nat := 0x0004
def GL_ARRAY_BUFFER : Nat := 0x8892
def GL_VERTEX_SHADER : Nat := 0x8B31
def GL_FRAGMENT_SHADER : Nat := 0x8B30
def GL_GEOMETRY_SHADER : Nat := 0x8DD9
def GL_TESS_CONTROL_SHADER : Nat := 0x8E88
def GL_TESS_EVALUATION_SHADER : Nat := 0x8E87
def GL_COMPUTE_SHADER : Nat := 0x91B9
def GL_TEXTURE_2D_ARRAY : Nat := 0x8C1A
def GL_TEXTURE_MIN_FILTER : Nat := 0x2801
def GL_TEXTURE_MAG_FILTER : Nat := 0x2800
def GL_NEAREST : Nat := 0x2600
def GL_LINEAR : Nat := 0x2601
def GL_RGBA : Nat := 0x1908
def GL_RGBA8 : Nat := 0x8058
def GL_UNSIGNED_BYTE : Nat := 0x1401

/-! ## Calls into the libraries -/

/-- One call made by nuGL into OpenGL, stb_image or the C library, with its arguments.
A `glGen*` / `glCreate*` event carries the name the call produced; a message written
to `stderr` is a `log` event carrying the name of the reporting function. -/
inductive Call where
  | glDeleteBuffers (id : Nat)
  | glGenBuffers (id : Nat)
  | glBindBuffer (target id : Nat)
  | glDeleteVertexArrays (id : Nat)
  | glGenVertexArrays (id : Nat)
  | glBindVertexArray (id : Nat)
  | glVertexAttribPointer (index : Nat) (size : Int) (type normalized : Nat) (stride : Int)
      (pointer : Nat)
  | glEnableVertexAttribArray (index : Nat)
  | glCreateShader (type id : Nat)
  | glShaderSource (shader : Nat) (source : List Char)
  | glCompileShader (shader : Nat)
  | glGetShaderiv (shader : Nat)
  | glGetShaderInfoLog (shader : Nat)
  | glDeleteShader (shader : Nat)
  | glCreateProgram (id : Nat)
  | glAttachShader (program shader : Nat)
  | glLinkProgram (program : Nat)
  | glGetProgramiv (program : Nat)
  | glGetProgramInfoLog (program : Nat)
  | glDeleteProgram (program : Nat)
  | glUseProgram (program : Nat)
  | glGetUniformLocation (program : Nat) (name : List Char)
  | glUniform1i (location : Nat) (v0 : Int)
  | glUniform1f (location : Nat) (v0 : Nat)
  | glUniform2f (location : Nat) (v0 v1 : Nat)
  | glUniform3f (location : Nat) (v0 v1 v2 : Nat)
  | glUniform4f (location : Nat) (v0 v1 v2 v3 : Nat)
  | glUniformMatrix4fv (location count transpose : Nat) (value : List Nat)
  | glGenTextures (id : Nat)
  | glBindTexture (target id : Nat)
  | glTexParameteri (target pname param : Nat)
  | glTexImage3D (target level internalformat : Nat) (width height : Int) (depth : Nat)
      (border format type : Nat)
  | glTexSubImage3D (target level xoffset yoffset zoffset : Nat) (width height : Int)
      (depth format type : Nat) (pixels : List Nat)
  | glDeleteTextures (id : Nat)
  | stbi_set_flip_vertically_on_load (flag : Nat)
  | stbi_load (filename : List Char)
  | stbi_image_free
  | fopen (filename : List Char)
  | log (reporter : String)
  deriving DecidableEq, Repr

/-- An image as decoded by `stbi_load`. -/
structure Image where
  width : Int
  height : Int
  pixels : List Nat
  deriving DecidableEq, Repr

/-- What the libraries answer. `gen_name` is the object name a `glGen*` / `glCreate*`
call produces after the given history of calls; a `float` is carried as the natural
number of its bit pattern; `uninit i` is the byte found at offset `i` of memory that
`malloc` or `realloc` hands out uninitialised. -/
structure Env where
  gen_name : List Call → Nat
  compile_status : Nat → List Char → Bool
  link_status : List Nat → Bool
  uniform_location : Nat → List Char → Int
  file_contents : List Char → Option (List Char)
  fread_complete : List Char → Bool
  stbi_decode : List Char → Option Image
  uninit : Nat → Nat

/-- Result of running a C function: a value, a loop still running when the given number
of iterations is used up, or an access outside the object a pointer points into. -/
inductive Outcome (α : Type) where
  | ok (a : α)
  | out_of_fuel
  | undefined
  deriving DecidableEq, Repr

/-- The C loop `for (size_t i = 0; i < n; i++) s = body i s`. -/
def for_loop {σ : Type} (n : Nat) (body : Nat → σ → σ) (init : σ) : σ :=
  (List.range n).foldl (fun s i => body i s) init

/-! ## Meshes -/

/-- The struct `nu_Mesh`; `data` is `none` for a null pointer and otherwise holds the
bytes of the allocation it points to. -/
structure nu_Mesh where
  data : Option (List Nat)
  bytes_alloced : Nat
  bytes_added : Nat
  stride : Nat
  VAO : Nat
  VBO : Nat
  render_mode : Nat
  deriving DecidableEq, Repr

/-- The stride loop shared by `nu_define_layout` and `nu_create_mesh`:
`stride += component_sizes[i] * component_counts[i]`. -/
def stride_step (component_sizes component_counts : List Nat) (i stride : Nat) : Nat :=
  size_add stride (size_mul (component_sizes.getD i 0) (component_counts.getD i 0))

/-- Body of the second loop of `nu_define_layout`; the state is the running `offset`
and the calls issued so far. The call
`glVertexAttribPointer(GLuint index, GLint size, GLenum type, GLboolean normalized,
GLsizei stride, const void *pointer)` receives the `size_t` values `i`,
`component_counts[i]` and `stride` converted to its parameter types, and
`glEnableVertexAttribArray(GLuint index)` receives `i` converted likewise; the offset is
passed as a pointer and keeps all its bits. -/
def attrib_step (component_sizes component_counts component_types : List Nat)
    (stride i : Nat) (s : Nat × List Call) : Nat × List Call :=
  (size_add s.1 (size_mul (component_sizes.getD i 0) (component_counts.getD i 0)),
   s.2 ++ [Call.glVertexAttribPointer (GLuint_of_size i)
             (GLint_of_size (component_counts.getD i 0))
             (component_types.getD i 0) GL_FALSE (GLint_of_size stride) s.1,
           Call.glEnableVertexAttribArray (GLuint_of_size i)])

/-- The first six calls of `nu_define_layout`, regenerating the buffer and the vertex
array; returns the new `VAO`, the new `VBO` and the calls. -/
def regen_objects (env : Env) (hist : List Call) (VAO VBO : Nat) : Nat × Nat × List Call :=
  let t1 := [Call.glDeleteBuffers VBO]
  let vbo := env.gen_name (hist ++ t1)
  let t2 := t1 ++ [Call.glGenBuffers vbo, Call.glBindBuffer GL_ARRAY_BUFFER vbo,
                   Call.glDeleteVertexArrays VAO]
  let vao := env.gen_name (hist ++ t2)
  (vao, vbo, t2 ++ [Call.glGenVertexArrays vao, Call.glBindVertexArray vao])

/-- `nu_define_layout`: returns the new `*VAO`, the new `*VBO` and the calls issued. -/
def nu_define_layout (env : Env) (hist : List Call) (VAO VBO : Nat) (num_components : Nat)
    (component_sizes component_counts component_types : List Nat) : Nat × Nat × List Call :=
  let r := regen_objects env hist VAO VBO
  let stride := for_loop num_components (stride_step component_sizes component_counts) 0
  let s := for_loop num_components
    (attrib_step component_sizes component_counts component_types stride) (0, r.2.2)
  (r.1, r.2.1, s.2)

/-- `nu_create_mesh`: returns the mesh and the calls issued. -/
def nu_create_mesh (env : Env) (hist : List Call) (num_components : Nat)
    (component_sizes component_counts component_types : List Nat) : nu_Mesh × List Call :=
  let stride := for_loop num_components (stride_step component_sizes component_counts) 0
  let r := nu_define_layout env hist 0 0 num_components
    component_sizes component_counts component_types
  ({ data := none, bytes_alloced := 0, bytes_added := 0, stride := stride,
     VAO := r.1, VBO := r.2.1, render_mode := GL_TRIANGLES }, r.2.2)

/-- Exact (unbounded) sum of `component_sizes[j] * component_counts[j]` over `j < i`. -/
def layout_sum (component_sizes component_counts : List Nat) (i : Nat) : Nat :=
  ((List.range i).map (fun j => component_sizes.getD j 0 * component_counts.getD j 0)).sum

/-- An environment for concrete runs: names count up from 1, every shader compiles,
every program links, no uniform resolves, no file and no image exists. -/
def env0 : Env where
  gen_name := fun hist => hist.length + 1
  compile_status := fun _ _ => true
  link_status := fun _ => true
  uniform_location := fun _ _ => -1
  file_contents := fun _ => none
  fread_complete := fun _ => true
  stbi_decode := fun _ => none
  uninit := fun _ => 0

/-- Contents of `malloc(size)`; the allocation is taken to succeed, as the source does. -/
def malloc (env : Env) (size : Nat) : List Nat :=
  (List.range size).map env.uninit

/-- Contents of `realloc(buf, size)`: the old bytes up to the smaller of the two sizes,
then uninitialised bytes. -/
def realloc (env : Env) (buf : List Nat) (size : Nat) : List Nat :=
  (buf ++ (List.range (size - buf.length)).map (fun k => env.uninit (buf.length + k))).take size

/-- The bytes `memcpy(dst + pos, src, n)` leaves in `dst`, or `none` when the copy does not
fit into `dst`. -/
def memcpy (dst : List Nat) (pos : Nat) (src : List Nat) (n : Nat) : Option (List Nat) :=
  if pos + n ≤ dst.length then
    some (dst.take pos ++ (List.range n).map (fun k => src.getD k 0) ++ dst.drop (pos + n))
  else none

/-- The loop `while (bytes_added + n_bytes > bytes_alloced) bytes_alloced *= 2;` of
`nu_mesh_add_bytes`, allowed `fuel` executions of its body; `need` is the value of
`bytes_added + n_bytes`. Returns the final `bytes_alloced`. -/
def grow_loop : Nat → Nat → Nat → Option Nat
  | 0, need, alloced => if need > alloced then none else some alloced
  | fuel + 1, need, alloced =>
    if need > alloced then grow_loop fuel need (size_mul alloced 2) else some alloced

/-- `nu_mesh_add_bytes`: the mesh `*mesh` after the call. `fuel` bounds the iterations of
the doubling loop; `src` is the span `src[0 .. n_bytes-1]`, `none` for a null pointer.
The buffer `mesh->data` points to is carried along next to the struct. -/
def nu_mesh_add_bytes (env : Env) (fuel : Nat) (mesh : Option nu_Mesh)
    (src : Option (List Nat)) (n_bytes : Nat) : Outcome (Option nu_Mesh) :=
  if n_bytes = 0 then .ok mesh else
  match src with
  | none => .ok mesh
  | some bytes =>
    match mesh with
    | none => .ok none
    | some m =>
      -- if (!mesh->data) { bytes_alloced = 1024; data = malloc(...); bytes_added = 0; }
      let m1 : nu_Mesh × List Nat :=
        match m.data with
        | none =>
          let buf := malloc env (size_mul 1 1024)
          ({ m with bytes_alloced := 1024, data := some buf, bytes_added := 0 }, buf)
        | some buf => (m, buf)
      -- if (bytes_added + n_bytes > bytes_alloced) { while ... ; data = realloc(...); }
      let need := size_add m1.1.bytes_added n_bytes
      let m2 : Option (nu_Mesh × List Nat) :=
        if need > m1.1.bytes_alloced then
          match grow_loop fuel need m1.1.bytes_alloced with
          | none => none
          | some alloced =>
            let buf := realloc env m1.2 (size_mul alloced 1)
            some ({ m1.1 with bytes_alloced := alloced, data := some buf }, buf)
        else some m1
      match m2 with
      | none => .out_of_fuel
      | some (m3, buf) =>
        -- memcpy(data + bytes_added, src, n_bytes); bytes_added += n_bytes;
        match memcpy buf m3.bytes_added bytes n_bytes with
        | none => .undefined
        | some buf1 =>
          .ok (some { m3 with data := some buf1,
                              bytes_added := size_add m3.bytes_added n_bytes })

/-- `nu_free_mesh`: the mesh `*mesh` after the call. -/
def nu_free_mesh (mesh : Option nu_Mesh) : Option nu_Mesh :=
  match mesh with
  | none => none
  | some m => some { m with data := none, bytes_alloced := 0 }

/-- A client appending the spans `srcs` one after the other to `*mesh`, each with its
full length as `n_bytes`. -/
def mesh_add_all (env : Env) (fuel : Nat) :
    Option nu_Mesh → List (List Nat) → Outcome (Option nu_Mesh)
  | mesh, [] => .ok mesh
  | mesh, src :: rest =>
    match nu_mesh_add_bytes env fuel mesh (some src) src.length with
    | .ok mesh1 => mesh_add_all env fuel mesh1 rest
    | .out_of_fuel => .out_of_fuel
    | .undefined => .undefined

/-- Total number of bytes in a list of spans. -/
def total_bytes (srcs : List (List Nat)) : Nat := (srcs.map List.length).sum

/-- A mesh holding a live zero-byte allocation. -/
def zero_capacity_mesh : nu_Mesh :=
  { data := some [], bytes_alloced := 0, bytes_added := 0, stride := 12,
    VAO := 1, VBO := 2, render_mode := GL_TRIANGLES }

/-- A mesh with an eight-byte buffer of which three bytes are in use. -/
def small_mesh : nu_Mesh :=
  { data := some [1, 2, 3, 0, 0, 0, 0, 0], bytes_alloced := 8, bytes_added := 3, stride := 1,
    VAO := 1, VBO := 2, render_mode := GL_TRIANGLES }

/-! ## Variadic arguments and C strings -/

/-- `va_arg(args, T)`: the next argument and the arguments left; `d` stands for what is
read when none is left. -/
def va_arg {α : Type} (args : List α) (d : α) : α × List α := (args.headD d, args.tail)

/-- The terminating NUL character. -/
def NUL : Char := Char.ofNat 0

/-- A `char *`: the characters of the array it points into (the NUL that ends the array is
left implicit) and the index of the element pointed to. -/
structure CharPtr where
  arr : List Char
  pos : Nat
  deriving DecidableEq, Repr

/-- The C string a pointer denotes: the characters from the pointer up to the first NUL. -/
def CharPtr.str (p : CharPtr) : List Char := (p.arr.drop p.pos).takeWhile (fun c => c != NUL)

/-- `strlen`. -/
def strlen (p : CharPtr) : Nat := p.str.length

/-- A pointer to the first character of a string held in an array of its own. -/
def CharPtr.ofString (s : String) : CharPtr := { arr := s.toList, pos := 0 }

/-! ## Textures -/

/-- The struct `nu_Texture`. -/
structure nu_Texture where
  id : Nat
  type : Nat
  deriving DecidableEq, Repr

/-- The loop `for (size_t i = 1; i < num_textures; i++)` of `nu_load_texture_array`:
`remaining` is `num_textures - i`, `tr` the calls issued so far. Returns `res` and the
calls. -/
def texture_layers (env : Env) (res : nu_Texture) (width height : Int) :
    Nat → Nat → List (List Char) → List Call → nu_Texture × List Call
  | 0, _, _, tr => (res, tr)
  | remaining + 1, i, args, tr =>
    let a := va_arg args []
    let path := a.1
    let tr1 := tr ++ [Call.stbi_load path]
    match env.stbi_decode path with
    | none =>
      -- glDeleteTextures(1, &res.id); va_end(args); return res;
      (res, tr1 ++ [Call.log "nu_load_texture_array", Call.glDeleteTextures res.id])
    | some image =>
      if image.width ≠ width ∨ image.height ≠ height then
        texture_layers env res width height remaining (i + 1) a.2
          (tr1 ++ [Call.log "nu_load_texture_array", Call.stbi_image_free])
      else
        texture_layers env res width height remaining (i + 1) a.2
          (tr1 ++ [Call.glTexSubImage3D GL_TEXTURE_2D_ARRAY 0 0 0 i width height 1 GL_RGBA
                     GL_UNSIGNED_BYTE image.pixels,
                   Call.stbi_image_free])

/-- `nu_load_texture_array`: returns the texture handle and the calls issued; `args` are
the file names passed after `num_textures`. -/
def nu_load_texture_array (env : Env) (hist : List Call) (num_textures : Nat)
    (args : List (List Char)) : nu_Texture × List Call :=
  let res : nu_Texture := { id := 0, type := GL_TEXTURE_2D_ARRAY }
  if num_textures = 0 then (res, []) else
  let a := va_arg args []
  let first_path := a.1
  let tr0 := [Call.stbi_set_flip_vertically_on_load 1, Call.stbi_load first_path]
  match env.stbi_decode first_path with
  | none => (res, tr0 ++ [Call.log "nu_load_texture_array"])
  | some first_image =>
    let width := first_image.width
    let height := first_image.height
    let res1 : nu_Texture := { res with id := env.gen_name (hist ++ tr0) }
    let tr1 := tr0 ++
      [Call.glGenTextures res1.id,
       Call.glBindTexture GL_TEXTURE_2D_ARRAY res1.id,
       Call.glTexParameteri GL_TEXTURE_2D_ARRAY GL_TEXTURE_MIN_FILTER GL_LINEAR,
       Call.glTexParameteri GL_TEXTURE_2D_ARRAY GL_TEXTURE_MAG_FILTER GL_NEAREST,
       Call.glTexImage3D GL_TEXTURE_2D_ARRAY 0 GL_RGBA8 width height num_textures 0 GL_RGBA
         GL_UNSIGNED_BYTE,
       Call.glTexSubImage3D GL_TEXTURE_2D_ARRAY 0 0 0 0 width height 1 GL_RGBA
         GL_UNSIGNED_BYTE first_image.pixels,
       Call.stbi_image_free]
    texture_layers env res1 width height (num_textures - 1) 1 a.2 tr1

/-- `nu_destroy_texture`: the texture `*texture` after the call and the calls issued. -/
def nu_destroy_texture (texture : Option nu_Texture) : Option nu_Texture × List Call :=
  match texture with
  | none => (none, [])
  | some t => (some { t with id := 0 }, [Call.glDeleteTextures t.id])

/-- The layer uploads in a list of calls: `zoffset` and pixel data of each
`glTexSubImage3D`, in order. -/
def uploads (tr : List Call) : List (Nat × List Nat) :=
  tr.filterMap (fun c =>
    match c with
    | .glTexSubImage3D _ _ _ _ zoffset _ _ _ _ _ pixels => some (zoffset, pixels)
    | _ => none)

/-- The file names handed to `stbi_load` in a list of calls, in order. -/
def decoded (tr : List Call) : List (List Char) :=
  tr.filterMap (fun c =>
    match c with
    | .stbi_load filename => some filename
    | _ => none)

/-- The upload expected for argument `i` of a texture array whose first image is
`width` x `height`: none for an image of another size. -/
def expected_upload (env : Env) (width height : Int) (i : Nat) (path : List Char) :
    Option (Nat × List Nat) :=
  match env.stbi_decode path with
  | none => none
  | some image =>
    if image.width ≠ width ∨ image.height ≠ height then none else some (i, image.pixels)

/-- An environment with three image files: `a.png` and `c.png` of 100 x 100 pixels and
`b.png` of 50 x 50; any other file fails to decode. -/
def env_images : Env :=
  { env0 with
    stbi_decode := fun name =>
      if name = "a.png".toList then some { width := 100, height := 100, pixels := [1] }
      else if name = "b.png".toList then some { width := 50, height := 50, pixels := [2] }
      else if name = "c.png".toList then some { width := 100, height := 100, pixels := [3] }
      else none }

/-! ## Uniforms -/

/-- The struct `nu_Program`. -/
structure nu_Program where
  shader_program : Nat
  deriving DecidableEq, Repr

/-- Conversion of an `int` to `GLuint` (`unsigned int`). -/
def to_GLuint (x : Int) : Nat := (x % (GLUINT_MOD : Int)).toNat

/-- `nu_get_uniform_loc`: `some` of the value stored to `*res` when the function returns
`true`, `none` when it returns `false`; and the calls issued. -/
def nu_get_uniform_loc (env : Env) (program : Option nu_Program) (uniform_name : List Char) :
    Option Nat × List Call :=
  match program with
  | none => (none, [])
  | some p =>
    let tr := [Call.glUseProgram p.shader_program,
               Call.glGetUniformLocation p.shader_program uniform_name]
    let uniform_loc := to_GLuint (env.uniform_location p.shader_program uniform_name)
    if uniform_loc = to_GLuint (-1) then (none, tr ++ [Call.log "nu_get_uniform_loc"])
    else (some uniform_loc, tr)

/-- `nu_send_uniform_int`: the calls issued. -/
def nu_send_uniform_int (env : Env) (val : Int) (program : Option nu_Program)
    (uniform_name : List Char) : List Call :=
  match nu_get_uniform_loc env program uniform_name with
  | (none, tr) => tr
  | (some uniform_loc, tr) => tr ++ [Call.glUniform1i uniform_loc val, Call.glUseProgram 0]

/-- `nu_send_uniform_float`: the calls issued. -/
def nu_send_uniform_float (env : Env) (val : Nat) (program : Option nu_Program)
    (uniform_name : List Char) : List Call :=
  match nu_get_uniform_loc env program uniform_name with
  | (none, tr) => tr
  | (some uniform_loc, tr) => tr ++ [Call.glUniform1f uniform_loc val, Call.glUseProgram 0]

/-- `nu_send_uniform_vec2`: the calls issued; `val` is `none` for a null pointer. -/
def nu_send_uniform_vec2 (env : Env) (val : Option (List Nat)) (program : Option nu_Program)
    (uniform_name : List Char) : List Call :=
  match val with
  | none => []
  | some v =>
    match nu_get_uniform_loc env program uniform_name with
    | (none, tr) => tr
    | (some uniform_loc, tr) =>
      tr ++ [Call.glUniform2f uniform_loc (v.getD 0 0) (v.getD 1 0), Call.glUseProgram 0]

/-- `nu_send_uniform_vec3`: the calls issued. -/
def nu_send_uniform_vec3 (env : Env) (val : Option (List Nat)) (program : Option nu_Program)
    (uniform_name : List Char) : List Call :=
  match val with
  | none => []
  | some v =>
    match nu_get_uniform_loc env program uniform_name with
    | (none, tr) => tr
    | (some uniform_loc, tr) =>
      tr ++ [Call.glUniform3f uniform_loc (v.getD 0 0) (v.getD 1 0) (v.getD 2 0),
             Call.glUseProgram 0]

/-- `nu_send_uniform_vec4`: the calls issued. -/
def nu_send_uniform_vec4 (env : Env) (val : Option (List Nat)) (program : Option nu_Program)
    (uniform_name : List Char) : List Call :=
  match val with
  | none => []
  | some v =>
    match nu_get_uniform_loc env program uniform_name with
    | (none, tr) => tr
    | (some uniform_loc, tr) =>
      tr ++ [Call.glUniform4f uniform_loc (v.getD 0 0) (v.getD 1 0) (v.getD 2 0) (v.getD 3 0),
             Call.glUseProgram 0]

/-- `nu_send_uniform_mat4`: the calls issued. -/
def nu_send_uniform_mat4 (env : Env) (val : Option (List Nat)) (program : Option nu_Program)
    (uniform_name : List Char) : List Call :=
  match val with
  | none => []
  | some v =>
    match nu_get_uniform_loc env program uniform_name with
    | (none, tr) => tr
    | (some uniform_loc, tr) =>
      tr ++ [Call.glUniformMatrix4fv uniform_loc 1 GL_FALSE v, Call.glUseProgram 0]

/-- The programs made current by the `glUseProgram` calls in a list of calls, in order. -/
def program_bindings (tr : List Call) : List Nat :=
  tr.filterMap (fun c =>
    match c with
    | .glUseProgram program => some program
    | _ => none)

/-- Whether a call uploads a uniform value. -/
def is_uniform_upload (c : Call) : Bool :=
  match c with
  | .glUniform1i .. => true
  | .glUniform1f .. => true
  | .glUniform2f .. => true
  | .glUniform3f .. => true
  | .glUniform4f .. => true
  | .glUniformMatrix4fv .. => true
  | _ => false

/-- An environment in which the uniform `color` of every program has location 2 and no
other name resolves. -/
def env_uniforms : Env :=
  { env0 with
    uniform_location := fun _ name => if name = "color".toList then 2 else -1 }

/-! ## Shaders and programs -/

/-- `nu_read_file`: the file contents (`none` for `NULL`) and the calls issued. -/
def nu_read_file (env : Env) (file_name : CharPtr) : Option (List Char) × List Call :=
  let name := file_name.str
  match env.file_contents name with
  | none => (none, [Call.fopen name, Call.log "nu_read_file"])
  | some contents =>
    if contents.length = 0 then (none, [Call.fopen name, Call.log "nu_read_file"])
    else if env.fread_complete name then (some contents, [Call.fopen name])
    else (none, [Call.fopen name, Call.log "nu_read_file"])

/-- The array `shader_types` of `nu_compile_shader`. -/
def shader_types : List Nat :=
  [GL_VERTEX_SHADER, GL_FRAGMENT_SHADER, GL_GEOMETRY_SHADER, GL_TESS_CONTROL_SHADER,
   GL_TESS_EVALUATION_SHADER, GL_COMPUTE_SHADER]

/-- The array `shader_exts` of `nu_compile_shader`. -/
def shader_exts : List (List Char) :=
  [".vert".toList, ".frag".toList, ".geom".toList, ".tesc".toList, ".tese".toList,
   ".comp".toList]

/-- The loop of `nu_compile_shader` that looks the extension up, leaving `shader_type` 0
when no entry compares equal; `remaining` is `num_types - i`. -/
def select_shader_type (ext : List Char) : Nat → Nat → Nat
  | 0, _ => 0
  | remaining + 1, i =>
    if ext = shader_exts.getD i [] then shader_types.getD i 0
    else select_shader_type ext remaining (i + 1)

/-- `nu_compile_shader`: the shader name returned and the calls issued. For
`name_len < 5` the source writes its message and goes on, without returning. The result is
`undefined` when `shader_file_location + name_len - 5` lies before the array the path
points into. -/
def nu_compile_shader (env : Env) (hist : List Call) (shader_file_location : Option CharPtr) :
    Outcome (Nat × List Call) :=
  match shader_file_location with
  | none => .ok (0, [])
  | some loc =>
    let name_len := strlen loc
    let tr0 := if name_len < 5 then [Call.log "nu_compile_shader"] else []
    if loc.pos + name_len < 5 then .undefined else
    let ext : CharPtr := { arr := loc.arr, pos := loc.pos + name_len - 5 }
    let shader_type := select_shader_type ext.str shader_types.length 0
    if shader_type = 0 then
      .ok (0, tr0 ++ List.replicate (2 + shader_types.length) (Call.log "nu_compile_shader"))
    else
      let r := nu_read_file env loc
      match r.1 with
      | none => .ok (0, tr0 ++ r.2 ++ [Call.log "nu_compile_shader"])
      | some source =>
        let src := source.takeWhile (fun c => c != NUL)
        let shader := env.gen_name (hist ++ tr0 ++ r.2)
        let tr1 := tr0 ++ r.2 ++
          [Call.glCreateShader shader_type shader, Call.glShaderSource shader src,
           Call.glCompileShader shader, Call.glGetShaderiv shader]
        if env.compile_status shader_type src then .ok (shader, tr1)
        else
          .ok (0, tr1 ++ [Call.glGetShaderInfoLog shader, Call.log "nu_compile_shader",
                          Call.glDeleteShader shader])

/-- The first loop of `nu_create_program`: `remaining` is `num_shaders - i`, `shaders` holds
`shaders[0 .. i-1]`, `tr` the calls issued so far. Returns `some` of the filled array, or
`none` when the function returned early, and the calls. -/
def compile_shaders (env : Env) (hist : List Call) :
    Nat → List (Option CharPtr) → List Nat → List Call →
      Outcome (Option (List Nat) × List Call)
  | 0, _, shaders, tr => .ok (some shaders, tr)
  | remaining + 1, args, shaders, tr =>
    let a := va_arg args none
    match nu_compile_shader env (hist ++ tr) a.1 with
    | .ok r =>
      if r.1 = 0 then
        .ok (none, tr ++ r.2 ++ [Call.log "nu_create_program"]
                    ++ shaders.map Call.glDeleteShader)
      else compile_shaders env hist remaining a.2 (shaders ++ [r.1]) (tr ++ r.2)
    | .out_of_fuel => .out_of_fuel
    | .undefined => .undefined

/-- `nu_create_program`: the program handle and the calls issued; `args` are the paths
passed after `num_shaders`. -/
def nu_create_program (env : Env) (hist : List Call) (num_shaders : Nat)
    (args : List (Option CharPtr)) : Outcome (nu_Program × List Call) :=
  match compile_shaders env hist num_shaders args [] [] with
  | .ok (none, tr) => .ok ({ shader_program := 0 }, tr)
  | .ok (some shaders, tr) =>
    let shader_program := env.gen_name (hist ++ tr)
    let tr1 := tr ++ [Call.glCreateProgram shader_program]
      ++ shaders.map (Call.glAttachShader shader_program)
      ++ [Call.glLinkProgram shader_program]
      ++ shaders.map Call.glDeleteShader
      ++ [Call.glGetProgramiv shader_program]
    if env.link_status shaders then .ok ({ shader_program := shader_program }, tr1)
    else
      .ok ({ shader_program := 0 },
           tr1 ++ [Call.glGetProgramInfoLog shader_program, Call.log "nu_create_program",
                   Call.glDeleteProgram shader_program])
  | .out_of_fuel => .out_of_fuel
  | .undefined => .undefined

/-- One step of following the shader objects alive through a history of calls. -/
def live_step (live : List Nat) (c : Call) : List Nat :=
  match c with
  | .glCreateShader _ id => id :: live
  | .glDeleteShader shader => live.filter (fun s => s != shader)
  | _ => live

/-- The shader objects created and not yet deleted after a history of calls. -/
def live_shaders (hist : List Call) : List Nat := hist.foldl live_step []

/-- The shader objects created in a list of calls, in order. -/
def created_shaders (tr : List Call) : List Nat :=
  tr.filterMap (fun c =>
    match c with
    | .glCreateShader _ id => some id
    | _ => none)

/-- Whether a call is a log message or the opening of a file. -/
def is_quiet (c : Call) : Bool :=
  match c with
  | .log _ => true
  | .fopen _ => true
  | _ => false

/-- The object name mentioned by a creating call, 0 for any other call. -/
def created_name (c : Call) : Nat :=
  match c with
  | .glCreateShader _ id => id
  | .glCreateProgram id => id
  | .glGenBuffers id => id
  | .glGenVertexArrays id => id
  | .glGenTextures id => id
  | _ => 0

/-- An environment for shader runs: a new object gets a name one above every name created
before; the files `a.vert`, `b.frag` and `vert` exist; a shader compiles unless its
source is the text `bad`. -/
def env_shaders : Env :=
  { env0 with
    gen_name := fun hist => (hist.map created_name).foldr max 0 + 1
    file_contents := fun name =>
      if name = "a.vert".toList then some "void main".toList
      else if name = "b.frag".toList then some "bad".toList
      else if name = "c.frag".toList then some "void main".toList
      else if name = "vert".toList then some "void main".toList
      else none
    compile_status := fun _ src => src != "bad".toList }

/-! ## Theorems -/

theorem for_loop_zero {σ : Type} (body : Nat → σ → σ) (init : σ) :
    for_loop 0 body init = init := rfl

theorem for_loop_succ {σ : Type} (n : Nat) (body : Nat → σ → σ) (init : σ) :
    for_loop (n + 1) body init = body n (for_loop n body init) := by
  simp [for_loop, List.range_succ, List.foldl_append]

theorem layout_sum_succ (sizes counts : List Nat) (i : Nat) :
    layout_sum sizes counts (i + 1)
      = layout_sum sizes counts i + sizes.getD i 0 * counts.getD i 0 := by
  simp [layout_sum, List.range_succ, List.sum_append]

theorem layout_sum_mono (sizes counts : List Nat) {i n : Nat} (h : i ≤ n) :
    layout_sum sizes counts i ≤ layout_sum sizes counts n := by
  induction h with
  | refl => exact Nat.le_refl _
  | step _ ih => rw [layout_sum_succ]; omega

theorem size_step_exact (sizes counts : List Nat) (i : Nat)
    (h : layout_sum sizes counts (i + 1) < SIZE_MOD) :
    size_add (layout_sum sizes counts i) (size_mul (sizes.getD i 0) (counts.getD i 0))
      = layout_sum sizes counts (i + 1) := by
  rw [layout_sum_succ] at h ⊢
  have h1 : sizes.getD i 0 * counts.getD i 0 < SIZE_MOD := by omega
  simp only [size_add, size_mul, Nat.mod_eq_of_lt h1, Nat.mod_eq_of_lt h]

theorem stride_loop_exact (sizes counts : List Nat) (n : Nat)
    (h : layout_sum sizes counts n < SIZE_MOD) :
    for_loop n (stride_step sizes counts) 0 = layout_sum sizes counts n := by
  induction n with
  | zero => rfl
  | succ k ih =>
    have hk : layout_sum sizes counts k < SIZE_MOD :=
      Nat.lt_of_le_of_lt (layout_sum_mono sizes counts (Nat.le_succ k)) h
    rw [for_loop_succ, ih hk, stride_step, size_step_exact sizes counts k h]

/-- The attribute calls the layout loop issues for slots `0 .. n-1`. -/
theorem attrib_loop_exact (sizes counts types : List Nat) (stride : Nat) (pre : List Call)
    (n : Nat) (h : layout_sum sizes counts n < SIZE_MOD) :
    for_loop n (attrib_step sizes counts types stride) (0, pre)
      = (layout_sum sizes counts n,
         pre ++ (List.range n).flatMap (fun i =>
           [Call.glVertexAttribPointer (GLuint_of_size i) (GLint_of_size (counts.getD i 0))
              (types.getD i 0) GL_FALSE (GLint_of_size stride) (layout_sum sizes counts i),
            Call.glEnableVertexAttribArray (GLuint_of_size i)])) := by
  induction n with
  | zero => simp [for_loop_zero, layout_sum]
  | succ k ih =>
    have hk : layout_sum sizes counts k < SIZE_MOD :=
      Nat.lt_of_le_of_lt (layout_sum_mono sizes counts (Nat.le_succ k)) h
    rw [for_loop_succ, ih hk]
    simp only [attrib_step, size_step_exact sizes counts k h, List.range_succ,
      List.flatMap_append, List.append_assoc]
    simp

theorem GLuint_of_size_small (x : Nat) (h : x < GLUINT_MOD) : GLuint_of_size x = x :=
  Nat.mod_eq_of_lt h

theorem GLint_of_size_small (x : Nat) (h : x ≤ GLINT_MAX) : GLint_of_size x = (x : Int) := by
  have hmax : GLINT_MAX < GLUINT_MOD := by decide
  have hmod : x % GLUINT_MOD = x := Nat.mod_eq_of_lt (Nat.lt_of_le_of_lt h hmax)
  simp only [GLint_of_size, hmod, if_pos h]

theorem flatMap_range_congr (n : Nat) (f g : Nat → List Call)
    (h : ∀ i, i < n → f i = g i) : (List.range n).flatMap f = (List.range n).flatMap g := by
  induction n with
  | zero => rfl
  | succ k ih =>
    rw [List.range_succ, List.flatMap_append, List.flatMap_append,
      ih (fun i hi => h i (Nat.lt_succ_of_lt hi))]
    simp [h k (Nat.lt_succ_self k)]

/-- C1 (amended): for a layout of `N` components whose exact stride sum does not overflow
`size_t`, `nu_create_mesh` returns a mesh whose stride is the sum of `component_sizes[i] *
component_counts[i]`; and when moreover that sum fits a `GLsizei` (at most `2 ^ 31 - 1`)
and every slot index fits a `GLuint` (`N ≤ 2 ^ 32`), `nu_define_layout` issues, after
regenerating its objects, exactly one `glVertexAttribPointer` / `glEnableVertexAttribArray`
pair per slot `i = 0 .. N-1`, in order, with that stride and with the sum over `j < i` as
byte offset (the component count is passed converted to `GLint`). -/
theorem nu_create_mesh_stride_and_offsets (env : Env) (hist : List Call) (VAO VBO N : Nat)
    (component_sizes component_counts component_types : List Nat)
    (hsizes : component_sizes.length = N) (hcounts : component_counts.length = N)
    (hov : layout_sum component_sizes component_counts N < SIZE_MOD) :
    (nu_create_mesh env hist N component_sizes component_counts component_types).1.stride
        = layout_sum component_sizes component_counts N
    ∧ (layout_sum component_sizes component_counts N ≤ GLINT_MAX → N ≤ GLUINT_MOD →
        (nu_define_layout env hist VAO VBO N
            component_sizes component_counts component_types).2.2
          = (regen_objects env hist VAO VBO).2.2 ++ (List.range N).flatMap (fun i =>
              [Call.glVertexAttribPointer i (GLint_of_size (component_counts.getD i 0))
                 (component_types.getD i 0) GL_FALSE
                 ((layout_sum component_sizes component_counts N : Nat) : Int)
                 (layout_sum component_sizes component_counts i),
               Call.glEnableVertexAttribArray i])) := by
  have _ := hsizes
  have _ := hcounts
  constructor
  · simp only [nu_create_mesh, stride_loop_exact component_sizes component_counts N hov]
  · intro hfit hN
    simp only [nu_define_layout, stride_loop_exact component_sizes component_counts N hov,
      attrib_loop_exact component_sizes component_counts component_types _ _ N hov]
    congr 1
    apply flatMap_range_congr
    intro i hi
    rw [GLuint_of_size_small i (Nat.lt_of_lt_of_le hi hN), GLint_of_size_small _ hfit]

theorem nu_create_mesh_stride_and_offsets_witness :
    layout_sum [4, 4] [3, 2] 2 = 20
    ∧ (nu_create_mesh env0 [] 2 [4, 4] [3, 2] [5126, 5126]).1.stride
        = layout_sum [4, 4] [3, 2] 2
    ∧ (nu_define_layout env0 [] 0 0 2 [4, 4] [3, 2] [5126, 5126]).2.2
        = (regen_objects env0 [] 0 0).2.2 ++ (List.range 2).flatMap (fun i =>
            [Call.glVertexAttribPointer i (GLint_of_size ([3, 2].getD i 0))
               ([5126, 5126].getD i 0) GL_FALSE
               ((layout_sum [4, 4] [3, 2] 2 : Nat) : Int) (layout_sum [4, 4] [3, 2] i),
             Call.glEnableVertexAttribArray i]) :=
  ⟨by decide,
   (nu_create_mesh_stride_and_offsets env0 [] 0 0 2 [4, 4] [3, 2] [5126, 5126] rfl rfl
     (by decide)).1,
   (nu_create_mesh_stride_and_offsets env0 [] 0 0 2 [4, 4] [3, 2] [5126, 5126] rfl rfl
     (by decide)).2 (by decide) (by decide)⟩

/-- C1, as stated, fails for a layout whose stride sum does not overflow `size_t` but does
not fit a `GLsizei`: for component sizes `2 ^ 32` and `4` with counts `1` and `3` the mesh
stride is `2 ^ 32 + 12`, while `glVertexAttribPointer` is given the stride 12 for both
slots. -/
theorem nu_define_layout_stride_narrowed :
    layout_sum [4294967296, 4] [1, 3] 2 = 4294967308
    ∧ layout_sum [4294967296, 4] [1, 3] 2 < SIZE_MOD
    ∧ (nu_create_mesh env0 [] 2 [4294967296, 4] [1, 3] [5126, 5126]).1.stride = 4294967308
    ∧ (nu_define_layout env0 [] 0 0 2 [4294967296, 4] [1, 3] [5126, 5126]).2.2
        = (regen_objects env0 [] 0 0).2.2 ++
            [Call.glVertexAttribPointer 0 1 5126 GL_FALSE 12 0,
             Call.glEnableVertexAttribArray 0,
             Call.glVertexAttribPointer 1 3 5126 GL_FALSE 12 4294967296,
             Call.glEnableVertexAttribArray 1]
    ∧ ∀ c ∈ (nu_define_layout env0 [] 0 0 2 [4294967296, 4] [1, 3] [5126, 5126]).2.2,
        ∀ index size type normalized pointer,
          c ≠ Call.glVertexAttribPointer index size type normalized 4294967308 pointer := by
  refine ⟨by decide, by decide, by decide, by decide, ?_⟩
  have htr : (nu_define_layout env0 [] 0 0 2 [4294967296, 4] [1, 3] [5126, 5126]).2.2
      = (regen_objects env0 [] 0 0).2.2 ++
          [Call.glVertexAttribPointer 0 1 5126 GL_FALSE 12 0,
           Call.glEnableVertexAttribArray 0,
           Call.glVertexAttribPointer 1 3 5126 GL_FALSE 12 4294967296,
           Call.glEnableVertexAttribArray 1] := by decide
  intro c hc index size type normalized pointer heq
  rw [htr] at hc
  subst heq
  revert hc
  simp [regen_objects]

theorem range_map_getD (src : List Nat) :
    (List.range src.length).map (fun k => src.getD k 0) = src := by
  apply List.ext_getElem
  · simp
  · intro i h1 h2
    simp at h1
    simp [List.getD_eq_getElem?_getD, List.getElem?_eq_getElem h1]

theorem grow_loop_spec (need : Nat) (hneed : 2 * need ≤ SIZE_MOD) :
    ∀ (fuel a : Nat), 0 < a → need ≤ a * 2 ^ fuel →
      ∃ j, grow_loop fuel need a = some (a * 2 ^ j) ∧ need ≤ a * 2 ^ j
        ∧ (j = 0 ∨ a * 2 ^ (j - 1) < need) := by
  intro fuel
  induction fuel with
  | zero =>
    intro a _ h
    refine ⟨0, ?_, by simpa using h, Or.inl rfl⟩
    have : ¬ need > a := by simpa using h
    simp [grow_loop, this]
  | succ f ih =>
    intro a ha h
    by_cases hgt : need > a
    · have hmul : size_mul a 2 = a * 2 := by
        unfold size_mul
        apply Nat.mod_eq_of_lt
        omega
      have h2 : need ≤ a * 2 * 2 ^ f := by
        rw [pow_succ] at h
        calc need ≤ a * (2 ^ f * 2) := h
          _ = a * 2 * 2 ^ f := by ring
      obtain ⟨j, hj1, hj2, hj3⟩ := ih (a * 2) (by omega) h2
      refine ⟨j + 1, ?_, ?_, Or.inr ?_⟩
      · simp only [grow_loop, if_pos hgt, hmul, hj1]
        congr 1
        rw [pow_succ]; ring
      · calc need ≤ a * 2 * 2 ^ j := hj2
          _ = a * 2 ^ (j + 1) := by rw [pow_succ]; ring
      · rcases hj3 with rfl | hlt
        · simpa using hgt
        · have hjpos : 0 < j := by
            rcases Nat.eq_zero_or_pos j with h0 | h0
            · subst h0
              simp at hlt
              omega
            · exact h0
          have : a * 2 ^ (j + 1 - 1) = a * 2 * 2 ^ (j - 1) := by
            obtain ⟨i, rfl⟩ : ∃ i, j = i + 1 := ⟨j - 1, by omega⟩
            simp [pow_succ]; ring
          rw [this]; exact hlt
    · refine ⟨0, ?_, by simpa using Nat.le_of_not_gt hgt, Or.inl rfl⟩
      simp [grow_loop, hgt]

theorem size_mul_one_1024 : size_mul 1 1024 = 1024 := by decide

theorem malloc_length (env : Env) (size : Nat) : (malloc env size).length = size := by
  simp [malloc]

theorem realloc_length (env : Env) (buf : List Nat) (size : Nat)
    (h : buf.length ≤ size) : (realloc env buf size).length = size := by
  simp [realloc]; omega

theorem realloc_take (env : Env) (buf : List Nat) (size k : Nat)
    (h : buf.length ≤ size) (hk : k ≤ buf.length) :
    (realloc env buf size).take k = buf.take k := by
  unfold realloc
  rw [List.take_take, Nat.min_eq_left (Nat.le_trans hk h), List.take_append_of_le_length hk]

theorem memcpy_spec (dst : List Nat) (pos : Nat) (src : List Nat)
    (h : pos + src.length ≤ dst.length) :
    ∃ out, memcpy dst pos src src.length = some out ∧ out.length = dst.length
      ∧ out.take pos = dst.take pos ∧ (out.drop pos).take src.length = src := by
  refine ⟨dst.take pos ++ src ++ dst.drop (pos + src.length), ?_, ?_, ?_, ?_⟩
  · simp only [memcpy, if_pos h, range_map_getD]
  · simp; omega
  · have hp : (dst.take pos).length = pos := by simp; omega
    rw [List.append_assoc, List.take_append_of_le_length (by omega)]
    rw [List.take_of_length_le (by omega)]
  · have hp : (dst.take pos).length = pos := by simp; omega
    rw [List.append_assoc, List.drop_append_of_le_length (by omega)]
    rw [List.drop_of_length_le (by omega), List.nil_append]
    rw [List.take_append_of_le_length (by omega), List.take_of_length_le (by omega)]

/-- Appending to a mesh whose buffer is live. -/
theorem add_bytes_live (env : Env) (fuel : Nat) (m : nu_Mesh) (buf src : List Nat)
    (hfuel : 64 ≤ fuel) (hdata : m.data = some buf) (hlen : buf.length = m.bytes_alloced)
    (hle : m.bytes_added ≤ m.bytes_alloced) (hpos : 0 < m.bytes_alloced)
    (hov : 2 * (m.bytes_added + src.length) ≤ SIZE_MOD) (hn : 0 < src.length) :
    ∃ j out, nu_mesh_add_bytes env fuel (some m) (some src) src.length
        = .ok (some { m with data := some out, bytes_alloced := m.bytes_alloced * 2 ^ j,
                             bytes_added := m.bytes_added + src.length })
      ∧ out.length = m.bytes_alloced * 2 ^ j
      ∧ m.bytes_added + src.length ≤ m.bytes_alloced * 2 ^ j
      ∧ (j = 0 ∨ m.bytes_alloced * 2 ^ (j - 1) < m.bytes_added + src.length)
      ∧ out.take m.bytes_added = buf.take m.bytes_added
      ∧ (out.drop m.bytes_added).take src.length = src := by
  have hmod : (2 : Nat) ^ 64 = SIZE_MOD := rfl
  have hadd : size_add m.bytes_added src.length = m.bytes_added + src.length := by
    unfold size_add; apply Nat.mod_eq_of_lt; omega
  have hn0 : src.length ≠ 0 := by omega
  by_cases hgt : m.bytes_added + src.length > m.bytes_alloced
  · have hbig : m.bytes_added + src.length ≤ m.bytes_alloced * 2 ^ fuel := by
      have h1 : (2 : Nat) ^ 64 ≤ 2 ^ fuel := Nat.pow_le_pow_right (by decide) hfuel
      calc m.bytes_added + src.length ≤ 1 * 2 ^ 64 := by omega
        _ ≤ m.bytes_alloced * 2 ^ fuel := Nat.mul_le_mul hpos h1
    obtain ⟨j, hj1, hj2, hj3⟩ :=
      grow_loop_spec (m.bytes_added + src.length) hov fuel m.bytes_alloced hpos hbig
    have hjpos : j ≠ 0 := by
      rintro rfl
      simp at hj2; omega
    have hlt : m.bytes_alloced * 2 ^ j < SIZE_MOD := by
      rcases hj3 with h0 | h1
      · exact absurd h0 hjpos
      · obtain ⟨i, rfl⟩ : ∃ i, j = i + 1 := ⟨j - 1, by omega⟩
        simp at h1
        rw [pow_succ]
        have : m.bytes_alloced * (2 ^ i * 2) = m.bytes_alloced * 2 ^ i * 2 := by ring
        omega
    have hmul1 : size_mul (m.bytes_alloced * 2 ^ j) 1 = m.bytes_alloced * 2 ^ j := by
      unfold size_mul; rw [Nat.mul_one]; exact Nat.mod_eq_of_lt hlt
    have hge : buf.length ≤ m.bytes_alloced * 2 ^ j := by omega
    have hrl := realloc_length env buf _ hge
    obtain ⟨out, ho1, ho2, ho3, ho4⟩ :=
      memcpy_spec (realloc env buf (m.bytes_alloced * 2 ^ j)) m.bytes_added src (by omega)
    refine ⟨j, out, ?_, by omega, hj2, hj3, ?_, ho4⟩
    · simp [nu_mesh_add_bytes, hn0, hdata, hadd, hgt, hj1, hmul1, ho1]
    · rw [ho3, realloc_take env buf _ _ hge (by omega)]
  · obtain ⟨out, ho1, ho2, ho3, ho4⟩ := memcpy_spec buf m.bytes_added src (by omega)
    refine ⟨0, out, ?_, by simpa [hlen] using ho2, by simpa using Nat.le_of_not_gt hgt,
      Or.inl rfl, ho3, ho4⟩
    simp [nu_mesh_add_bytes, hn0, hdata, hadd, hgt, ho1]

set_option maxRecDepth 4000 in
/-- Appending to a mesh without buffer is appending to the same mesh given a fresh
1024-byte buffer and logical length zero. -/
theorem add_bytes_null_data (env : Env) (fuel : Nat) (m : nu_Mesh) (src : List Nat)
    (n : Nat) (hn : n ≠ 0) (hdata : m.data = none) :
    nu_mesh_add_bytes env fuel (some m) (some src) n
      = nu_mesh_add_bytes env fuel
          (some { m with data := some (malloc env 1024), bytes_alloced := 1024,
                         bytes_added := 0 }) (some src) n := by
  unfold nu_mesh_add_bytes
  rw [if_neg hn, if_neg hn]
  simp only [hdata, size_mul_one_1024]

theorem total_bytes_cons (s : List Nat) (rest : List (List Nat)) :
    total_bytes (s :: rest) = s.length + total_bytes rest := by
  simp [total_bytes]

/-- Appending a list of non-empty spans to a mesh whose live buffer has a capacity of the
form `1024 * 2 ^ k`. -/
theorem mesh_add_all_live (env : Env) (fuel : Nat) (hfuel : 64 ≤ fuel) :
    ∀ (srcs : List (List Nat)) (m : nu_Mesh) (buf : List Nat) (k : Nat),
      m.data = some buf → buf.length = m.bytes_alloced → m.bytes_alloced = 1024 * 2 ^ k →
      m.bytes_added ≤ m.bytes_alloced → (∀ s ∈ srcs, 0 < s.length) →
      2 * (m.bytes_added + total_bytes srcs) ≤ SIZE_MOD →
      ∃ m1 k1, mesh_add_all env fuel (some m) srcs = .ok (some m1)
        ∧ m1.bytes_added = m.bytes_added + total_bytes srcs
        ∧ m1.bytes_added ≤ m1.bytes_alloced
        ∧ m1.bytes_alloced = 1024 * 2 ^ k1 := by
  intro srcs
  induction srcs with
  | nil =>
    intro m buf k _ _ hk hle _ _
    exact ⟨m, k, rfl, by simp [total_bytes], hle, hk⟩
  | cons s rest ih =>
    intro m buf k hdata hlen hk hle hpos hov
    rw [total_bytes_cons] at hov
    have hs : 0 < s.length := hpos s (List.mem_cons_self s rest)
    have hcap : 0 < m.bytes_alloced := by rw [hk]; positivity
    obtain ⟨j, out, hrun, hout, hfit, _, _, _⟩ :=
      add_bytes_live env fuel m buf s hfuel hdata hlen hle hcap (by omega) hs
    obtain ⟨m1, k1, h1, h2, h3, h4⟩ :=
      ih { m with data := some out, bytes_alloced := m.bytes_alloced * 2 ^ j,
                  bytes_added := m.bytes_added + s.length } out (k + j) rfl hout
        (by simp only [hk, pow_add]; ring) hfit
        (fun t ht => hpos t (List.mem_cons_of_mem s ht)) (by simp only; omega)
    refine ⟨m1, k1, ?_, ?_, h3, h4⟩
    · simp only [mesh_add_all, hrun, h1]
    · rw [h2, total_bytes_cons]; simp only; omega

/-- C2 (amended): starting from the mesh returned by `nu_create_mesh`, every non-empty
sequence of `nu_mesh_add_bytes` calls with non-null sources of positive lengths whose total
`L` can be held by a doubled capacity without `size_t` overflow (`2 * L ≤ 2 ^ 64`) returns
with `bytes_added = L`, `bytes_alloced ≥ L` and `bytes_alloced = 1024 * 2 ^ k` for some
`k`. -/
theorem mesh_add_all_from_created (env : Env) (hist : List Call) (N : Nat)
    (component_sizes component_counts component_types : List Nat) (fuel : Nat)
    (srcs : List (List Nat)) (hfuel : 64 ≤ fuel) (hne : srcs ≠ [])
    (hpos : ∀ s ∈ srcs, 0 < s.length) (hov : 2 * total_bytes srcs ≤ SIZE_MOD) :
    ∃ m k, mesh_add_all env fuel
        (some (nu_create_mesh env hist N component_sizes component_counts component_types).1)
        srcs = .ok (some m)
      ∧ m.bytes_added = total_bytes srcs
      ∧ total_bytes srcs ≤ m.bytes_alloced
      ∧ m.bytes_alloced = 1024 * 2 ^ k := by
  cases srcs with
  | nil => exact absurd rfl hne
  | cons s rest =>
    have hs : 0 < s.length := hpos s (List.mem_cons_self s rest)
    generalize hm0 :
      (nu_create_mesh env hist N component_sizes component_counts component_types).1 = m0
    have hdata : m0.data = none := by rw [← hm0]; rfl
    have hstep : mesh_add_all env fuel (some m0) (s :: rest)
        = mesh_add_all env fuel
            (some { m0 with data := some (malloc env 1024), bytes_alloced := 1024,
                            bytes_added := 0 }) (s :: rest) := by
      simp only [mesh_add_all, add_bytes_null_data env fuel m0 s s.length (by omega) hdata]
    obtain ⟨m1, k1, h1, h2, h3, h4⟩ :=
      mesh_add_all_live env fuel hfuel (s :: rest)
        { m0 with data := some (malloc env 1024), bytes_alloced := 1024, bytes_added := 0 }
        (malloc env 1024) 0 rfl (malloc_length env 1024) (by simp) (by simp) hpos
        (by simpa using hov)
    refine ⟨m1, k1, ?_, ?_, ?_, h4⟩
    · rw [hstep, h1]
    · simpa using h2
    · have : m1.bytes_added = total_bytes (s :: rest) := by simpa using h2
      omega

theorem mesh_add_all_from_created_witness :
    (64 ≤ 64) ∧ ([[1, 2, 3], [4]] : List (List Nat)) ≠ []
    ∧ (∀ s ∈ ([[1, 2, 3], [4]] : List (List Nat)), 0 < s.length)
    ∧ 2 * total_bytes [[1, 2, 3], [4]] ≤ SIZE_MOD
    ∧ ∃ m k, mesh_add_all env0 64 (some (nu_create_mesh env0 [] 1 [4] [3] [5126]).1)
          [[1, 2, 3], [4]] = .ok (some m)
        ∧ m.bytes_added = total_bytes [[1, 2, 3], [4]]
        ∧ total_bytes [[1, 2, 3], [4]] ≤ m.bytes_alloced
        ∧ m.bytes_alloced = 1024 * 2 ^ k :=
  ⟨by decide, by decide, by decide, by decide,
   mesh_add_all_from_created env0 [] 1 [4] [3] [5126] 64 [[1, 2, 3], [4]]
     (by decide) (by decide) (by decide) (by decide)⟩

/-- C2, as stated, fails for the empty sequence of calls: the mesh returned by
`nu_create_mesh` with no append made has capacity 0, which is no `1024 * 2 ^ k`. -/
theorem mesh_add_all_empty_sequence :
    (∀ s ∈ ([] : List (List Nat)), 0 < s.length)
    ∧ 2 * total_bytes [] ≤ SIZE_MOD
    ∧ ∃ m, mesh_add_all env0 64 (some (nu_create_mesh env0 [] 1 [4] [3] [5126]).1) []
          = .ok (some m)
        ∧ m.bytes_added = total_bytes [] ∧ m.bytes_alloced = 0
        ∧ ¬ ∃ k, m.bytes_alloced = 1024 * 2 ^ k := by
  refine ⟨by simp, by decide, _, rfl, rfl, rfl, ?_⟩
  rintro ⟨k, hk⟩
  have h0 : (nu_create_mesh env0 [] 1 [4] [3] [5126]).1.bytes_alloced = 0 := rfl
  rw [h0] at hk
  have : 0 < 1024 * 2 ^ k := by positivity
  omega

theorem grow_loop_zero_capacity (need : Nat) (hneed : 0 < need) :
    ∀ fuel, grow_loop fuel need 0 = none := by
  intro fuel
  induction fuel with
  | zero => simp [grow_loop, hneed]
  | succ f ih =>
    have h0 : size_mul 0 2 = 0 := by decide
    simp [grow_loop, hneed, h0, ih]

/-- C3 (amended): for a mesh with a live buffer of `bytes_alloced > 0` bytes, with
`bytes_added ≤ bytes_alloced`, and a non-null source span of `n > 0` bytes such that
`bytes_added + n ≤ 2 ^ 63` (the capacity doubled to hold it does not overflow `size_t`),
`nu_mesh_add_bytes` returns, leaves the first `bytes_added` bytes of the buffer as they
were, places the source bytes in order at positions `bytes_added .. bytes_added + n - 1`
and sets `bytes_added` to the old value plus `n`. -/
theorem nu_mesh_add_bytes_appends (env : Env) (fuel : Nat) (m : nu_Mesh)
    (buf src : List Nat) (n : Nat) (hfuel : 64 ≤ fuel)
    (hdata : m.data = some buf) (hlen : buf.length = m.bytes_alloced)
    (hle : m.bytes_added ≤ m.bytes_alloced) (hcap : 0 < m.bytes_alloced)
    (hn : 0 < n) (hsrc : src.length = n) (hov : 2 * (m.bytes_added + n) ≤ SIZE_MOD) :
    ∃ m1 out, nu_mesh_add_bytes env fuel (some m) (some src) n = .ok (some m1)
      ∧ m1.data = some out
      ∧ out.take m.bytes_added = buf.take m.bytes_added
      ∧ (out.drop m.bytes_added).take n = src
      ∧ m1.bytes_added = m.bytes_added + n := by
  subst hsrc
  obtain ⟨j, out, hrun, _, _, _, htake, hdrop⟩ :=
    add_bytes_live env fuel m buf src hfuel hdata hlen hle hcap hov hn
  exact ⟨_, out, hrun, rfl, htake, hdrop, rfl⟩

theorem nu_mesh_add_bytes_appends_witness :
    small_mesh.data = some [1, 2, 3, 0, 0, 0, 0, 0]
    ∧ small_mesh.bytes_added ≤ small_mesh.bytes_alloced
    ∧ ∃ m1 out, nu_mesh_add_bytes env0 64 (some small_mesh)
          (some [7, 8, 9, 10, 11, 12]) 6 = .ok (some m1)
        ∧ m1.data = some out
        ∧ out.take small_mesh.bytes_added
            = ([1, 2, 3, 0, 0, 0, 0, 0] : List Nat).take small_mesh.bytes_added
        ∧ (out.drop small_mesh.bytes_added).take 6 = [7, 8, 9, 10, 11, 12]
        ∧ m1.bytes_added = small_mesh.bytes_added + 6 :=
  ⟨rfl, by decide,
   nu_mesh_add_bytes_appends env0 64 small_mesh [1, 2, 3, 0, 0, 0, 0, 0]
     [7, 8, 9, 10, 11, 12] 6 (by decide) rfl rfl (by decide) (by decide) (by decide) rfl
     (by decide)⟩

/-- C3, as stated, fails for a mesh whose live buffer has capacity 0 (`bytes_added = 0 ≤
bytes_alloced = 0`): doubling 0 never reaches `bytes_added + n`, so the call does not
return for any number of loop iterations. -/
theorem nu_mesh_add_bytes_zero_capacity :
    zero_capacity_mesh.data = some []
    ∧ zero_capacity_mesh.bytes_added ≤ zero_capacity_mesh.bytes_alloced
    ∧ ¬ ∃ fuel m1, nu_mesh_add_bytes env0 fuel (some zero_capacity_mesh) (some [7]) 1
          = .ok m1 := by
  refine ⟨rfl, by decide, ?_⟩
  rintro ⟨fuel, m1, h⟩
  have hg : grow_loop fuel 1 0 = none := grow_loop_zero_capacity 1 (by decide) fuel
  have hrun : nu_mesh_add_bytes env0 fuel (some zero_capacity_mesh) (some [7]) 1
      = .out_of_fuel := by
    simp [nu_mesh_add_bytes, zero_capacity_mesh, size_add, SIZE_MOD, hg]
  rw [hrun] at h
  cases h

/-- C9: on a non-null mesh `nu_free_mesh` sets `bytes_alloced` to 0 and `data` to null and
leaves `bytes_added`, `stride`, `render_mode`, `VAO` and `VBO` as they were. -/
theorem nu_free_mesh_resets_capacity_only (m : nu_Mesh) :
    ∃ m1, nu_free_mesh (some m) = some m1
      ∧ m1.bytes_alloced = 0 ∧ m1.data = none
      ∧ m1.bytes_added = m.bytes_added ∧ m1.stride = m.stride
      ∧ m1.render_mode = m.render_mode ∧ m1.VAO = m.VAO ∧ m1.VBO = m.VBO :=
  ⟨_, rfl, rfl, rfl, rfl, rfl, rfl, rfl, rfl⟩

/-- C10: for every mesh, `nu_mesh_add_bytes` called with `n_bytes = 0` or with a null
source returns and leaves `bytes_added` unchanged. -/
theorem nu_mesh_add_bytes_zero_or_null (env : Env) (fuel : Nat) (m : nu_Mesh)
    (src : Option (List Nat)) (n_bytes : Nat) (h : n_bytes = 0 ∨ src = none) :
    ∃ m1, nu_mesh_add_bytes env fuel (some m) src n_bytes = .ok (some m1)
      ∧ m1.bytes_added = m.bytes_added := by
  refine ⟨m, ?_, rfl⟩
  rcases h with h | h
  · simp [nu_mesh_add_bytes, h]
  · subst h
    by_cases hn : n_bytes = 0 <;> simp [nu_mesh_add_bytes, hn]

theorem nu_mesh_add_bytes_zero_or_null_witness :
    ((5 : Nat) = 0 ∨ (none : Option (List Nat)) = none)
    ∧ ∃ m1, nu_mesh_add_bytes env0 0 (some { small_mesh with data := none, bytes_alloced := 0 })
          none 5 = .ok (some m1)
        ∧ m1.bytes_added = small_mesh.bytes_added :=
  ⟨Or.inr rfl,
   nu_mesh_add_bytes_zero_or_null env0 0 { small_mesh with data := none, bytes_alloced := 0 }
     none 5 (Or.inr rfl)⟩

/-! ### Texture arrays -/

theorem uploads_append (a b : List Call) : uploads (a ++ b) = uploads a ++ uploads b := by
  simp [uploads, List.filterMap_append]

theorem decoded_append (a b : List Call) : decoded (a ++ b) = decoded a ++ decoded b := by
  simp [decoded, List.filterMap_append]

/-- The layer loop when every remaining image decodes: the handle is returned as it is,
every remaining file is decoded, and exactly the images of the reference size are
uploaded, each to the layer of its argument index. -/
theorem texture_layers_all_decode (env : Env) (res : nu_Texture) (width height : Int) :
    ∀ (rest : List (List Char)) (i : Nat) (tr : List Call),
      (∀ p ∈ rest, (env.stbi_decode p).isSome) →
      (texture_layers env res width height rest.length i rest tr).1 = res
      ∧ uploads (texture_layers env res width height rest.length i rest tr).2
          = uploads tr ++ (List.range rest.length).filterMap (fun j =>
              expected_upload env width height (i + j) (rest.getD j []))
      ∧ decoded (texture_layers env res width height rest.length i rest tr).2
          = decoded tr ++ rest := by
  intro rest
  induction rest with
  | nil => intro i tr _; simp [texture_layers]
  | cons p ps ih =>
    intro i tr hall
    have hp : (env.stbi_decode p).isSome := hall p (List.mem_cons_self p ps)
    have hps : ∀ q ∈ ps, (env.stbi_decode q).isSome :=
      fun q hq => hall q (List.mem_cons_of_mem p hq)
    obtain ⟨image, himg⟩ := Option.isSome_iff_exists.mp hp
    have hrange : (List.range (ps.length + 1)).filterMap (fun j =>
          expected_upload env width height (i + j) ((p :: ps).getD j []))
        = (expected_upload env width height i p).toList
          ++ (List.range ps.length).filterMap (fun j =>
              expected_upload env width height (i + 1 + j) (ps.getD j [])) := by
      rw [List.range_succ_eq_map, List.filterMap_cons, List.filterMap_map]
      have hfun : ((fun j => expected_upload env width height (i + j) ((p :: ps).getD j []))
            ∘ Nat.succ)
          = (fun j => expected_upload env width height (i + 1 + j) (ps.getD j [])) := by
        funext j
        simp [Nat.succ_eq_add_one, Nat.add_assoc, Nat.add_comm 1 j]
      rw [hfun]
      cases h : expected_upload env width height (i + 0) ((p :: ps).getD 0 []) with
      | none =>
        have h2 : expected_upload env width height i p = none := by simpa using h
        simp [h2]
      | some u =>
        have h2 : expected_upload env width height i p = some u := by simpa using h
        simp [h2]
    by_cases hsize : image.width ≠ width ∨ image.height ≠ height
    · have hexp : expected_upload env width height i p = none := by
        simp only [expected_upload, himg, if_pos hsize]
      have hstep : texture_layers env res width height (p :: ps).length i (p :: ps) tr
          = texture_layers env res width height ps.length (i + 1) ps
              (tr ++ [Call.stbi_load p] ++
                [Call.log "nu_load_texture_array", Call.stbi_image_free]) := by
        simp only [List.length_cons, texture_layers, va_arg, List.headD_cons, List.tail_cons,
          himg, if_pos hsize]
      obtain ⟨h1, h2, h3⟩ := ih (i + 1)
        (tr ++ [Call.stbi_load p] ++ [Call.log "nu_load_texture_array", Call.stbi_image_free])
        hps
      rw [hstep]
      refine ⟨h1, ?_, ?_⟩
      · rw [h2, List.length_cons, hrange, hexp]
        simp [uploads_append, uploads]
      · rw [h3]
        simp [decoded_append, decoded]
    · have hexp : expected_upload env width height i p = some (i, image.pixels) := by
        simp only [expected_upload, himg, if_neg hsize]
      have hstep : texture_layers env res width height (p :: ps).length i (p :: ps) tr
          = texture_layers env res width height ps.length (i + 1) ps
              (tr ++ [Call.stbi_load p] ++
                [Call.glTexSubImage3D GL_TEXTURE_2D_ARRAY 0 0 0 i width height 1 GL_RGBA
                   GL_UNSIGNED_BYTE image.pixels,
                 Call.stbi_image_free]) := by
        simp only [List.length_cons, texture_layers, va_arg, List.headD_cons, List.tail_cons,
          himg, if_neg hsize]
      obtain ⟨h1, h2, h3⟩ := ih (i + 1)
        (tr ++ [Call.stbi_load p] ++
          [Call.glTexSubImage3D GL_TEXTURE_2D_ARRAY 0 0 0 i width height 1 GL_RGBA
             GL_UNSIGNED_BYTE image.pixels,
           Call.stbi_image_free]) hps
      rw [hstep]
      refine ⟨h1, ?_, ?_⟩
      · rw [h2, List.length_cons, hrange, hexp]
        simp [uploads_append, uploads]
      · rw [h3]
        simp [decoded_append, decoded]

theorem expected_upload_layer (env : Env) (width height : Int) (i : Nat) (path : List Char)
    (u : Nat × List Nat) (h : expected_upload env width height i path = some u) :
    u.1 = i := by
  unfold expected_upload at h
  split at h
  · cases h
  · split at h
    · cases h
    · cases h; rfl

/-- C8: when all `N ≥ 1` images decode (and the name `glGenTextures` hands out is not 0)
`nu_load_texture_array` returns a handle with non-zero id and type 2D-array, decodes every
file, and its layer uploads are, in order, the first image to layer 0 followed, for each
`i` with `1 ≤ i < N`, by image `i` to layer `i` exactly when image `i` has the width and
height of the first image; so layer `i` receives image `i` if the sizes agree and receives
nothing if they differ. -/
theorem nu_load_texture_array_all_decode (env : Env) (hist : List Call) (p0 : List Char)
    (rest : List (List Char)) (first : Image)
    (h0 : env.stbi_decode p0 = some first)
    (hrest : ∀ p ∈ rest, (env.stbi_decode p).isSome)
    (hname : ∀ h, env.gen_name h ≠ 0) :
    (nu_load_texture_array env hist (rest.length + 1) (p0 :: rest)).1.id ≠ 0
    ∧ (nu_load_texture_array env hist (rest.length + 1) (p0 :: rest)).1.type
        = GL_TEXTURE_2D_ARRAY
    ∧ decoded (nu_load_texture_array env hist (rest.length + 1) (p0 :: rest)).2 = p0 :: rest
    ∧ uploads (nu_load_texture_array env hist (rest.length + 1) (p0 :: rest)).2
        = (0, first.pixels) :: (List.range rest.length).filterMap (fun j =>
            expected_upload env first.width first.height (1 + j) (rest.getD j []))
    ∧ ∀ i image, 1 ≤ i → i < rest.length + 1 →
        env.stbi_decode ((p0 :: rest).getD i []) = some image →
        ((image.width = first.width ∧ image.height = first.height →
            (i, image.pixels)
              ∈ uploads (nu_load_texture_array env hist (rest.length + 1) (p0 :: rest)).2)
         ∧ (¬ (image.width = first.width ∧ image.height = first.height) →
            ∀ pixels, (i, pixels)
              ∉ uploads (nu_load_texture_array env hist (rest.length + 1) (p0 :: rest)).2)) := by
  obtain ⟨h1, h2, h3⟩ := texture_layers_all_decode env
    { id := env.gen_name
        (hist ++ [Call.stbi_set_flip_vertically_on_load 1, Call.stbi_load p0]),
      type := GL_TEXTURE_2D_ARRAY } first.width first.height rest 1
    ([Call.stbi_set_flip_vertically_on_load 1, Call.stbi_load p0] ++
      [Call.glGenTextures (env.gen_name
         (hist ++ [Call.stbi_set_flip_vertically_on_load 1, Call.stbi_load p0])),
       Call.glBindTexture GL_TEXTURE_2D_ARRAY (env.gen_name
         (hist ++ [Call.stbi_set_flip_vertically_on_load 1, Call.stbi_load p0])),
       Call.glTexParameteri GL_TEXTURE_2D_ARRAY GL_TEXTURE_MIN_FILTER GL_LINEAR,
       Call.glTexParameteri GL_TEXTURE_2D_ARRAY GL_TEXTURE_MAG_FILTER GL_NEAREST,
       Call.glTexImage3D GL_TEXTURE_2D_ARRAY 0 GL_RGBA8 first.width first.height
         (rest.length + 1) 0 GL_RGBA GL_UNSIGNED_BYTE,
       Call.glTexSubImage3D GL_TEXTURE_2D_ARRAY 0 0 0 0 first.width first.height 1 GL_RGBA
         GL_UNSIGNED_BYTE first.pixels,
       Call.stbi_image_free]) hrest
  have hrun : nu_load_texture_array env hist (rest.length + 1) (p0 :: rest)
      = texture_layers env
          { id := env.gen_name
              (hist ++ [Call.stbi_set_flip_vertically_on_load 1, Call.stbi_load p0]),
            type := GL_TEXTURE_2D_ARRAY } first.width first.height rest.length 1 rest
          ([Call.stbi_set_flip_vertically_on_load 1, Call.stbi_load p0] ++
            [Call.glGenTextures (env.gen_name
               (hist ++ [Call.stbi_set_flip_vertically_on_load 1, Call.stbi_load p0])),
             Call.glBindTexture GL_TEXTURE_2D_ARRAY (env.gen_name
               (hist ++ [Call.stbi_set_flip_vertically_on_load 1, Call.stbi_load p0])),
             Call.glTexParameteri GL_TEXTURE_2D_ARRAY GL_TEXTURE_MIN_FILTER GL_LINEAR,
             Call.glTexParameteri GL_TEXTURE_2D_ARRAY GL_TEXTURE_MAG_FILTER GL_NEAREST,
             Call.glTexImage3D GL_TEXTURE_2D_ARRAY 0 GL_RGBA8 first.width first.height
               (rest.length + 1) 0 GL_RGBA GL_UNSIGNED_BYTE,
             Call.glTexSubImage3D GL_TEXTURE_2D_ARRAY 0 0 0 0 first.width first.height 1
               GL_RGBA GL_UNSIGNED_BYTE first.pixels,
             Call.stbi_image_free]) := by
    simp only [nu_load_texture_array, Nat.succ_ne_zero, if_false, va_arg, List.headD_cons,
      List.tail_cons, h0, Nat.add_sub_cancel]
  have hup : uploads (nu_load_texture_array env hist (rest.length + 1) (p0 :: rest)).2
      = (0, first.pixels) :: (List.range rest.length).filterMap (fun j =>
          expected_upload env first.width first.height (1 + j) (rest.getD j [])) := by
    rw [hrun, h2]
    simp [uploads]
  refine ⟨?_, ?_, ?_, hup, ?_⟩
  · rw [hrun, h1]; exact hname _
  · rw [hrun, h1]
  · rw [hrun, h3]; simp [decoded]
  · intro i image hi1 hi2 himg
    obtain ⟨j, rfl⟩ : ∃ j, i = 1 + j := ⟨i - 1, by omega⟩
    have hj : j < rest.length := by omega
    have hget : (p0 :: rest).getD (1 + j) [] = rest.getD j [] := by
      rw [Nat.add_comm]; rfl
    rw [hget] at himg
    rw [hup]
    constructor
    · intro hsame
      refine List.mem_cons_of_mem _ (List.mem_filterMap.mpr ⟨j, List.mem_range.mpr hj, ?_⟩)
      have : ¬ (image.width ≠ first.width ∨ image.height ≠ first.height) := by
        rw [not_or, not_not, not_not]; exact hsame
      simp only [expected_upload, himg, if_neg this]
    · intro hdiff pixels hmem
      rcases List.mem_cons.mp hmem with heq | hmem
      · have : 1 + j = 0 := congrArg Prod.fst heq
        omega
      · obtain ⟨j2, _, hj2⟩ := List.mem_filterMap.mp hmem
        have hl := expected_upload_layer env _ _ _ _ _ hj2
        have hjj : j2 = j := by simp at hl; omega
        subst hjj
        have hne : image.width ≠ first.width ∨ image.height ≠ first.height := by
          by_contra hcon
          rw [not_or, not_not, not_not] at hcon
          exact hdiff hcon
        simp only [expected_upload, himg, if_pos hne] at hj2
        cases hj2

theorem nu_load_texture_array_all_decode_witness :
    (∀ p ∈ ["b.png".toList, "c.png".toList], (env_images.stbi_decode p).isSome)
    ∧ uploads (nu_load_texture_array env_images [] 3
        ["a.png".toList, "b.png".toList, "c.png".toList]).2 = [(0, [1]), (2, [3])]
    ∧ (nu_load_texture_array env_images [] (["b.png".toList, "c.png".toList].length + 1)
        ("a.png".toList :: ["b.png".toList, "c.png".toList])).1.id ≠ 0 :=
  ⟨by decide, by decide,
   (nu_load_texture_array_all_decode env_images [] "a.png".toList
      ["b.png".toList, "c.png".toList] { width := 100, height := 100, pixels := [1] }
      (by decide) (by decide) (fun h => Nat.succ_ne_zero h.length)).1⟩

/-- The layer loop when the images of `mid` decode and the next one, `pf`, does not: the
handle comes back with the id it had, the loop ends by deleting that texture, and nothing
after `pf` is decoded. -/
theorem texture_layers_decode_failure (env : Env) (res : nu_Texture) (width height : Int)
    (pf : List Char) (post : List (List Char)) (hf : env.stbi_decode pf = none) :
    ∀ (mid : List (List Char)) (i : Nat) (tr : List Call),
      (∀ p ∈ mid, (env.stbi_decode p).isSome) →
      (texture_layers env res width height (mid.length + post.length + 1) i
          (mid ++ pf :: post) tr).1 = res
      ∧ (texture_layers env res width height (mid.length + post.length + 1) i
          (mid ++ pf :: post) tr).2.getLast? = some (Call.glDeleteTextures res.id)
      ∧ decoded (texture_layers env res width height (mid.length + post.length + 1) i
          (mid ++ pf :: post) tr).2 = decoded tr ++ mid ++ [pf] := by
  intro mid
  induction mid with
  | nil =>
    intro i tr _
    simp [texture_layers, va_arg, hf, decoded_append, decoded]
  | cons p ps ih =>
    intro i tr hall
    have hp : (env.stbi_decode p).isSome := hall p (List.mem_cons_self p ps)
    have hps : ∀ q ∈ ps, (env.stbi_decode q).isSome :=
      fun q hq => hall q (List.mem_cons_of_mem p hq)
    obtain ⟨image, himg⟩ := Option.isSome_iff_exists.mp hp
    have hcount : (p :: ps).length + post.length + 1 = (ps.length + post.length + 1) + 1 := by
      simp only [List.length_cons]; omega
    by_cases hsize : image.width ≠ width ∨ image.height ≠ height
    · obtain ⟨h1, h2, h3⟩ := ih (i + 1)
        (tr ++ [Call.stbi_load p] ++ [Call.log "nu_load_texture_array", Call.stbi_image_free])
        hps
      have hstep : texture_layers env res width height ((p :: ps).length + post.length + 1) i
            (p :: ps ++ pf :: post) tr
          = texture_layers env res width height (ps.length + post.length + 1) (i + 1)
              (ps ++ pf :: post)
              (tr ++ [Call.stbi_load p] ++
                [Call.log "nu_load_texture_array", Call.stbi_image_free]) := by
        rw [hcount]
        simp only [List.cons_append, texture_layers, va_arg, List.headD_cons, List.tail_cons,
          himg, if_pos hsize]
      rw [hstep]
      refine ⟨h1, h2, ?_⟩
      rw [h3]; simp [decoded_append, decoded]
    · obtain ⟨h1, h2, h3⟩ := ih (i + 1)
        (tr ++ [Call.stbi_load p] ++
          [Call.glTexSubImage3D GL_TEXTURE_2D_ARRAY 0 0 0 i width height 1 GL_RGBA
             GL_UNSIGNED_BYTE image.pixels,
           Call.stbi_image_free]) hps
      have hstep : texture_layers env res width height ((p :: ps).length + post.length + 1) i
            (p :: ps ++ pf :: post) tr
          = texture_layers env res width height (ps.length + post.length + 1) (i + 1)
              (ps ++ pf :: post)
              (tr ++ [Call.stbi_load p] ++
                [Call.glTexSubImage3D GL_TEXTURE_2D_ARRAY 0 0 0 i width height 1 GL_RGBA
                   GL_UNSIGNED_BYTE image.pixels,
                 Call.stbi_image_free]) := by
        rw [hcount]
        simp only [List.cons_append, texture_layers, va_arg, List.headD_cons, List.tail_cons,
          himg, if_neg hsize]
      rw [hstep]
      refine ⟨h1, h2, ?_⟩
      rw [h3]; simp [decoded_append, decoded]

/-- C4 (what the code does): when the first image decodes, the images of `mid` decode and
the next image `pf` fails to decode, `nu_load_texture_array` decodes nothing after `pf`
and ends by deleting the array texture, but the handle it returns still carries the name of
that deleted texture, the one `glGenTextures` produced, instead of 0. -/
theorem nu_load_texture_array_decode_failure (env : Env) (hist : List Call)
    (p0 : List Char) (mid : List (List Char)) (pf : List Char) (post : List (List Char))
    (first : Image) (h0 : env.stbi_decode p0 = some first)
    (hmid : ∀ p ∈ mid, (env.stbi_decode p).isSome) (hf : env.stbi_decode pf = none) :
    (nu_load_texture_array env hist (mid.length + post.length + 2)
        (p0 :: (mid ++ pf :: post))).1.id
      = env.gen_name (hist ++ [Call.stbi_set_flip_vertically_on_load 1, Call.stbi_load p0])
    ∧ (nu_load_texture_array env hist (mid.length + post.length + 2)
        (p0 :: (mid ++ pf :: post))).2.getLast?
      = some (Call.glDeleteTextures
          (env.gen_name
            (hist ++ [Call.stbi_set_flip_vertically_on_load 1, Call.stbi_load p0])))
    ∧ decoded (nu_load_texture_array env hist (mid.length + post.length + 2)
        (p0 :: (mid ++ pf :: post))).2 = p0 :: mid ++ [pf] := by
  have hrun : nu_load_texture_array env hist (mid.length + post.length + 2)
        (p0 :: (mid ++ pf :: post))
      = texture_layers env
          { id := env.gen_name
              (hist ++ [Call.stbi_set_flip_vertically_on_load 1, Call.stbi_load p0]),
            type := GL_TEXTURE_2D_ARRAY } first.width first.height
          (mid.length + post.length + 1) 1 (mid ++ pf :: post)
          ([Call.stbi_set_flip_vertically_on_load 1, Call.stbi_load p0] ++
            [Call.glGenTextures (env.gen_name
               (hist ++ [Call.stbi_set_flip_vertically_on_load 1, Call.stbi_load p0])),
             Call.glBindTexture GL_TEXTURE_2D_ARRAY (env.gen_name
               (hist ++ [Call.stbi_set_flip_vertically_on_load 1, Call.stbi_load p0])),
             Call.glTexParameteri GL_TEXTURE_2D_ARRAY GL_TEXTURE_MIN_FILTER GL_LINEAR,
             Call.glTexParameteri GL_TEXTURE_2D_ARRAY GL_TEXTURE_MAG_FILTER GL_NEAREST,
             Call.glTexImage3D GL_TEXTURE_2D_ARRAY 0 GL_RGBA8 first.width first.height
               (mid.length + post.length + 2) 0 GL_RGBA GL_UNSIGNED_BYTE,
             Call.glTexSubImage3D GL_TEXTURE_2D_ARRAY 0 0 0 0 first.width first.height 1
               GL_RGBA GL_UNSIGNED_BYTE first.pixels,
             Call.stbi_image_free]) := by
    have hne : mid.length + post.length + 2 ≠ 0 := by omega
    have hsub : mid.length + post.length + 2 - 1 = mid.length + post.length + 1 := by omega
    simp only [nu_load_texture_array, if_neg hne, va_arg, List.headD_cons,
      List.tail_cons, h0, hsub]
  obtain ⟨h1, h2, h3⟩ := texture_layers_decode_failure env
    { id := env.gen_name
        (hist ++ [Call.stbi_set_flip_vertically_on_load 1, Call.stbi_load p0]),
      type := GL_TEXTURE_2D_ARRAY } first.width first.height pf post hf mid 1
    ([Call.stbi_set_flip_vertically_on_load 1, Call.stbi_load p0] ++
      [Call.glGenTextures (env.gen_name
         (hist ++ [Call.stbi_set_flip_vertically_on_load 1, Call.stbi_load p0])),
       Call.glBindTexture GL_TEXTURE_2D_ARRAY (env.gen_name
         (hist ++ [Call.stbi_set_flip_vertically_on_load 1, Call.stbi_load p0])),
       Call.glTexParameteri GL_TEXTURE_2D_ARRAY GL_TEXTURE_MIN_FILTER GL_LINEAR,
       Call.glTexParameteri GL_TEXTURE_2D_ARRAY GL_TEXTURE_MAG_FILTER GL_NEAREST,
       Call.glTexImage3D GL_TEXTURE_2D_ARRAY 0 GL_RGBA8 first.width first.height
         (mid.length + post.length + 2) 0 GL_RGBA GL_UNSIGNED_BYTE,
       Call.glTexSubImage3D GL_TEXTURE_2D_ARRAY 0 0 0 0 first.width first.height 1 GL_RGBA
         GL_UNSIGNED_BYTE first.pixels,
       Call.stbi_image_free]) hmid
  rw [hrun]
  refine ⟨by rw [h1], by rw [h2], ?_⟩
  rw [h3]; simp [decoded]

theorem nu_load_texture_array_decode_failure_witness :
    env_images.stbi_decode "corrupt.png".toList = none
    ∧ (nu_load_texture_array env_images [] 2 ["a.png".toList, "corrupt.png".toList]).1
        = { id := 3, type := GL_TEXTURE_2D_ARRAY }
    ∧ (nu_destroy_texture (some { id := 3, type := GL_TEXTURE_2D_ARRAY })).1
        = some { id := 0, type := GL_TEXTURE_2D_ARRAY }
    ∧ (nu_load_texture_array env_images [] (([] : List (List Char)).length
          + ([] : List (List Char)).length + 2)
        ("a.png".toList :: ([] ++ "corrupt.png".toList :: []))).2.getLast?
      = some (Call.glDeleteTextures (env_images.gen_name
          ([] ++ [Call.stbi_set_flip_vertically_on_load 1, Call.stbi_load "a.png".toList]))) :=
  ⟨by decide, by decide, by decide,
   (nu_load_texture_array_decode_failure env_images [] "a.png".toList [] "corrupt.png".toList
      [] { width := 100, height := 100, pixels := [1] } (by decide) (by decide)
      (by decide)).2.1⟩

/-! ### Uniforms -/

theorem nu_get_uniform_loc_unresolved (env : Env) (p : nu_Program) (name : List Char)
    (h : env.uniform_location p.shader_program name = -1) :
    nu_get_uniform_loc env (some p) name
      = (none, [Call.glUseProgram p.shader_program,
                Call.glGetUniformLocation p.shader_program name,
                Call.log "nu_get_uniform_loc"]) := by
  simp [nu_get_uniform_loc, h]

/-- C5 (what the code does): for a non-null program and a uniform name whose location
lookup yields -1, each `nu_send_uniform_*` operation issues exactly `glUseProgram(program)`,
the location lookup and a log message: no uniform value is uploaded, and the only
program-binding call is the one that makes the program current, so the operation finishes
with the program bound, not with program zero. -/
theorem nu_send_uniform_unresolved (env : Env) (p : nu_Program) (name : List Char)
    (ival : Int) (fval : Nat) (v : List Nat)
    (h : env.uniform_location p.shader_program name = -1) :
    (∀ tr ∈ [nu_send_uniform_int env ival (some p) name,
             nu_send_uniform_float env fval (some p) name,
             nu_send_uniform_vec2 env (some v) (some p) name,
             nu_send_uniform_vec3 env (some v) (some p) name,
             nu_send_uniform_vec4 env (some v) (some p) name,
             nu_send_uniform_mat4 env (some v) (some p) name],
        tr = [Call.glUseProgram p.shader_program,
              Call.glGetUniformLocation p.shader_program name,
              Call.log "nu_get_uniform_loc"]
        ∧ tr.filter is_uniform_upload = []
        ∧ program_bindings tr = [p.shader_program]) := by
  have hloc := nu_get_uniform_loc_unresolved env p name h
  intro tr htr
  have htr2 : tr = [Call.glUseProgram p.shader_program,
      Call.glGetUniformLocation p.shader_program name, Call.log "nu_get_uniform_loc"] := by
    simp only [List.mem_cons, List.mem_singleton, List.not_mem_nil, or_false] at htr
    rcases htr with rfl | rfl | rfl | rfl | rfl | rfl
    · simp only [nu_send_uniform_int, hloc]
    · simp only [nu_send_uniform_float, hloc]
    · simp only [nu_send_uniform_vec2, hloc]
    · simp only [nu_send_uniform_vec3, hloc]
    · simp only [nu_send_uniform_vec4, hloc]
    · simp only [nu_send_uniform_mat4, hloc]
  subst htr2
  exact ⟨rfl, rfl, rfl⟩

theorem nu_send_uniform_unresolved_witness :
    env_uniforms.uniform_location 3 "missing".toList = -1
    ∧ program_bindings (nu_send_uniform_int env_uniforms 5 (some ⟨3⟩) "missing".toList) = [3]
    ∧ program_bindings (nu_send_uniform_int env_uniforms 5 (some ⟨3⟩) "color".toList) = [3, 0]
    ∧ (∀ tr ∈ [nu_send_uniform_int env_uniforms 5 (some ⟨3⟩) "missing".toList,
               nu_send_uniform_float env_uniforms 7 (some ⟨3⟩) "missing".toList,
               nu_send_uniform_vec2 env_uniforms (some [1, 2]) (some ⟨3⟩) "missing".toList,
               nu_send_uniform_vec3 env_uniforms (some [1, 2]) (some ⟨3⟩) "missing".toList,
               nu_send_uniform_vec4 env_uniforms (some [1, 2]) (some ⟨3⟩) "missing".toList,
               nu_send_uniform_mat4 env_uniforms (some [1, 2]) (some ⟨3⟩) "missing".toList],
          tr = [Call.glUseProgram 3, Call.glGetUniformLocation 3 "missing".toList,
                Call.log "nu_get_uniform_loc"]
          ∧ tr.filter is_uniform_upload = []
          ∧ program_bindings tr = [3]) :=
  ⟨by decide, by decide, by decide,
   nu_send_uniform_unresolved env_uniforms ⟨3⟩ "missing".toList 5 7 [1, 2] (by decide)⟩

/-! ### Shader compilation -/

theorem takeWhile_drop {α : Type} (f : α → Bool) :
    ∀ (l : List α) (k : Nat), k ≤ (l.takeWhile f).length →
      (l.drop k).takeWhile f = (l.takeWhile f).drop k := by
  intro l
  induction l with
  | nil => intro k _; simp
  | cons a t ih =>
    intro k hk
    cases k with
    | zero => rfl
    | succ k =>
      by_cases hfa : f a = true
      · rw [List.takeWhile_cons_of_pos hfa] at hk ⊢
        simp only [List.length_cons, Nat.add_le_add_iff_right] at hk
        simpa using ih k hk
      · rw [List.takeWhile_cons_of_neg hfa] at hk
        simp at hk

/-- For a path of at least five characters, the string at `ext` is the last five
characters of the path. -/
theorem ext_str_eq (p : CharPtr) (h5 : 5 ≤ strlen p) :
    CharPtr.str { arr := p.arr, pos := p.pos + strlen p - 5 } = p.str.drop (strlen p - 5) := by
  have hpos : p.pos + strlen p - 5 = p.pos + (strlen p - 5) := by omega
  have hlen : strlen p = ((p.arr.drop p.pos).takeWhile (fun c => c != NUL)).length := rfl
  show (p.arr.drop (p.pos + strlen p - 5)).takeWhile (fun c => c != NUL)
    = ((p.arr.drop p.pos).takeWhile (fun c => c != NUL)).drop (strlen p - 5)
  rw [hpos, ← List.drop_drop]
  exact takeWhile_drop _ _ _ (by omega)

theorem select_shader_type_table :
    select_shader_type ".vert".toList shader_types.length 0 = GL_VERTEX_SHADER
    ∧ select_shader_type ".frag".toList shader_types.length 0 = GL_FRAGMENT_SHADER
    ∧ select_shader_type ".geom".toList shader_types.length 0 = GL_GEOMETRY_SHADER
    ∧ select_shader_type ".tesc".toList shader_types.length 0 = GL_TESS_CONTROL_SHADER
    ∧ select_shader_type ".tese".toList shader_types.length 0 = GL_TESS_EVALUATION_SHADER
    ∧ select_shader_type ".comp".toList shader_types.length 0 = GL_COMPUTE_SHADER := by
  decide

theorem select_shader_type_eq_zero (ext : List Char) (h : ext ∉ shader_exts) :
    select_shader_type ext shader_types.length 0 = 0 := by
  simp [shader_exts] at h
  obtain ⟨h1, h2, h3, h4, h5, h6⟩ := h
  simp [select_shader_type, shader_types, shader_exts, h1, h2, h3, h4, h5, h6]

/-- For a non-null path of at least five characters: when the last five characters are none
of the six suffixes `nu_compile_shader` returns 0 after logging only, without opening the
file and without creating a shader object; when they are one of the suffixes the stage
selected is the one listed with it. -/
theorem nu_compile_shader_suffix (env : Env) (hist : List Call) (p : CharPtr)
    (h5 : 5 ≤ strlen p) :
    (p.str.drop (strlen p - 5) ∉ shader_exts →
        nu_compile_shader env hist (some p)
          = .ok (0, List.replicate 8 (Call.log "nu_compile_shader")))
    ∧ (p.str.drop (strlen p - 5) = ".vert".toList →
        select_shader_type (CharPtr.str { arr := p.arr, pos := p.pos + strlen p - 5 })
          shader_types.length 0 = GL_VERTEX_SHADER)
    ∧ (p.str.drop (strlen p - 5) = ".frag".toList →
        select_shader_type (CharPtr.str { arr := p.arr, pos := p.pos + strlen p - 5 })
          shader_types.length 0 = GL_FRAGMENT_SHADER)
    ∧ (p.str.drop (strlen p - 5) = ".geom".toList →
        select_shader_type (CharPtr.str { arr := p.arr, pos := p.pos + strlen p - 5 })
          shader_types.length 0 = GL_GEOMETRY_SHADER)
    ∧ (p.str.drop (strlen p - 5) = ".tesc".toList →
        select_shader_type (CharPtr.str { arr := p.arr, pos := p.pos + strlen p - 5 })
          shader_types.length 0 = GL_TESS_CONTROL_SHADER)
    ∧ (p.str.drop (strlen p - 5) = ".tese".toList →
        select_shader_type (CharPtr.str { arr := p.arr, pos := p.pos + strlen p - 5 })
          shader_types.length 0 = GL_TESS_EVALUATION_SHADER)
    ∧ (p.str.drop (strlen p - 5) = ".comp".toList →
        select_shader_type (CharPtr.str { arr := p.arr, pos := p.pos + strlen p - 5 })
          shader_types.length 0 = GL_COMPUTE_SHADER) := by
  have hext := ext_str_eq p h5
  obtain ⟨t1, t2, t3, t4, t5, t6⟩ := select_shader_type_table
  refine ⟨?_, ?_, ?_, ?_, ?_, ?_, ?_⟩
  · intro hnot
    have hsel := select_shader_type_eq_zero _ hnot
    have h1 : ¬ strlen p < 5 := by omega
    have h2 : ¬ p.pos + strlen p < 5 := by omega
    simp only [nu_compile_shader, if_neg h1, if_neg h2, hext, hsel, if_true, List.nil_append]
    rfl
  all_goals
    intro h
    rw [hext, h]
    assumption

/-- C6 (what the code does on a path shorter than five characters): for the path `vert`
given as a pointer to the third character of the array `x.vert`, `nu_compile_shader` logs
the invalid name and goes on: `ext` then points one character before the path, at `.vert`,
so the vertex stage is selected, the file `vert` is opened and a shader object is created
and returned. For the same path in an array of its own, `ext` lies before the array and
the result is undefined. -/
theorem nu_compile_shader_short_path :
    CharPtr.str { arr := "x.vert".toList, pos := 2 } = "vert".toList
    ∧ strlen { arr := "x.vert".toList, pos := 2 } < 5
    ∧ "vert".toList ∉ shader_exts
    ∧ nu_compile_shader env_shaders [] (some { arr := "x.vert".toList, pos := 2 })
        = .ok (1, [Call.log "nu_compile_shader", Call.fopen "vert".toList,
                   Call.glCreateShader GL_VERTEX_SHADER 1,
                   Call.glShaderSource 1 "void main".toList,
                   Call.glCompileShader 1, Call.glGetShaderiv 1])
    ∧ nu_compile_shader env_shaders [] (some (CharPtr.ofString "vert")) = .undefined := by
  decide

/-! ### Program creation -/

theorem nu_read_file_quiet (env : Env) (p : CharPtr) :
    ∀ c ∈ (nu_read_file env p).2, is_quiet c = true := by
  intro c hc
  unfold nu_read_file at hc
  dsimp only at hc
  split at hc
  · simp at hc; rcases hc with rfl | rfl <;> rfl
  · split at hc
    · simp at hc; rcases hc with rfl | rfl <;> rfl
    · split at hc
      · simp at hc; subst hc; rfl
      · simp at hc; rcases hc with rfl | rfl <;> rfl

/-- The three shapes of a run of `nu_compile_shader`: nothing but log messages and a file
open, with result 0; these followed by the creation and compilation of a shader whose name
is returned; or these followed by the creation, the failed compilation and the deletion of
a shader, with result 0. -/
theorem nu_compile_shader_shape (env : Env) (hist : List Call) (loc : Option CharPtr)
    (r : Nat × List Call) (h : nu_compile_shader env hist loc = .ok r) :
    ∃ pre, (∀ c ∈ pre, is_quiet c = true) ∧
      (r = (0, pre)
       ∨ (∃ ty src, r = (env.gen_name (hist ++ pre),
            pre ++ [Call.glCreateShader ty (env.gen_name (hist ++ pre)),
                    Call.glShaderSource (env.gen_name (hist ++ pre)) src,
                    Call.glCompileShader (env.gen_name (hist ++ pre)),
                    Call.glGetShaderiv (env.gen_name (hist ++ pre))]))
       ∨ (∃ ty src, r = (0,
            pre ++ [Call.glCreateShader ty (env.gen_name (hist ++ pre)),
                    Call.glShaderSource (env.gen_name (hist ++ pre)) src,
                    Call.glCompileShader (env.gen_name (hist ++ pre)),
                    Call.glGetShaderiv (env.gen_name (hist ++ pre)),
                    Call.glGetShaderInfoLog (env.gen_name (hist ++ pre)),
                    Call.log "nu_compile_shader",
                    Call.glDeleteShader (env.gen_name (hist ++ pre))]))) := by
  cases loc with
  | none =>
    simp only [nu_compile_shader, Outcome.ok.injEq] at h
    exact ⟨[], by simp, Or.inl h.symm⟩
  | some p =>
    have hq0 : ∀ c ∈ (if strlen p < 5 then [Call.log "nu_compile_shader"] else []),
        is_quiet c = true := by
      intro c hc
      split at hc
      · simp at hc; subst hc; rfl
      · simp at hc
    simp only [nu_compile_shader] at h
    split at h
    · cases h
    · split at h
      · simp only [Outcome.ok.injEq] at h
        refine ⟨_, ?_, Or.inl h.symm⟩
        intro c hc
        rcases List.mem_append.mp hc with hc | hc
        · exact hq0 c hc
        · rw [List.eq_of_mem_replicate hc]; rfl
      · split at h
        · simp only [Outcome.ok.injEq] at h
          refine ⟨_, ?_, Or.inl h.symm⟩
          intro c hc
          simp only [List.mem_append, List.mem_singleton] at hc
          rcases hc with (hc | hc) | hc
          · exact hq0 c hc
          · exact nu_read_file_quiet env p c hc
          · subst hc; rfl
        · have hq : ∀ c ∈ (if strlen p < 5 then [Call.log "nu_compile_shader"] else [])
              ++ (nu_read_file env p).2, is_quiet c = true := by
            intro c hc
            rcases List.mem_append.mp hc with hc | hc
            · exact hq0 c hc
            · exact nu_read_file_quiet env p c hc
          rename_i _ contents _
          split at h
          · simp only [Outcome.ok.injEq] at h
            refine ⟨_, hq, Or.inr (Or.inl
              ⟨select_shader_type
                  (CharPtr.str { arr := p.arr, pos := p.pos + strlen p - 5 })
                  shader_types.length 0,
                contents.takeWhile (fun c => c != NUL), ?_⟩)⟩
            rw [← h, List.append_assoc hist]
          · simp only [Outcome.ok.injEq] at h
            refine ⟨_, hq, Or.inr (Or.inr
              ⟨select_shader_type
                  (CharPtr.str { arr := p.arr, pos := p.pos + strlen p - 5 })
                  shader_types.length 0,
                contents.takeWhile (fun c => c != NUL), ?_⟩)⟩
            rw [← h, List.append_assoc hist]
            simp

theorem live_shaders_append (h t : List Call) :
    live_shaders (h ++ t) = t.foldl live_step (live_shaders h) := by
  simp [live_shaders, List.foldl_append]

theorem live_step_quiet (live : List Nat) :
    ∀ pre : List Call, (∀ c ∈ pre, is_quiet c = true) → pre.foldl live_step live = live := by
  intro pre
  induction pre with
  | nil => intro _; rfl
  | cons c t ih =>
    intro hq
    have hc : is_quiet c = true := hq c (List.mem_cons_self c t)
    have hstep : live_step live c = live := by
      cases c <;> first | rfl | cases hc
    rw [List.foldl_cons, hstep]
    exact ih (fun d hd => hq d (List.mem_cons_of_mem c hd))

theorem created_shaders_append (a b : List Call) :
    created_shaders (a ++ b) = created_shaders a ++ created_shaders b := by
  simp [created_shaders, List.filterMap_append]

theorem created_shaders_quiet :
    ∀ pre : List Call, (∀ c ∈ pre, is_quiet c = true) → created_shaders pre = [] := by
  intro pre
  induction pre with
  | nil => intro _; rfl
  | cons c t ih =>
    intro hq
    have hc : is_quiet c = true := hq c (List.mem_cons_self c t)
    have ht := ih (fun d hd => hq d (List.mem_cons_of_mem c hd))
    cases c <;> first | (simpa [created_shaders] using ht) | cases hc

theorem not_quiet_not_mem (c : Call) (hc : is_quiet c = false) (pre : List Call)
    (hq : ∀ d ∈ pre, is_quiet d = true) : c ∉ pre := by
  intro hmem
  rw [hq c hmem] at hc
  cases hc

/-- What one run of `nu_compile_shader` does to the shader objects, when `glCreateShader`
never hands out 0 or the name of a live shader. -/
theorem nu_compile_shader_effect (env : Env)
    (hfresh : ∀ h, env.gen_name h ≠ 0 ∧ env.gen_name h ∉ live_shaders h)
    (hist : List Call) (loc : Option CharPtr) (r : Nat × List Call)
    (h : nu_compile_shader env hist loc = .ok r) :
    (∀ id, Call.glCreateProgram id ∉ r.2)
    ∧ (r.1 ≠ 0 → r.1 ∉ live_shaders hist
        ∧ live_shaders (hist ++ r.2) = r.1 :: live_shaders hist
        ∧ (∀ s, Call.glDeleteShader s ∉ r.2)
        ∧ created_shaders r.2 = [r.1])
    ∧ (r.1 = 0 → (∀ s ∈ live_shaders hist, Call.glDeleteShader s ∉ r.2)
        ∧ (created_shaders r.2 = [] ∨ ∃ x, created_shaders r.2 = [x])) := by
  obtain ⟨pre, hq, hshape⟩ := nu_compile_shader_shape env hist loc r h
  have hlive : live_shaders (hist ++ pre) = live_shaders hist := by
    rw [live_shaders_append, live_step_quiet _ pre hq]
  have hcr := created_shaders_quiet pre hq
  obtain ⟨hne, hnl⟩ := hfresh (hist ++ pre)
  rw [hlive] at hnl
  rcases hshape with rfl | ⟨ty, src, rfl⟩ | ⟨ty, src, rfl⟩
  · refine ⟨fun id => not_quiet_not_mem (Call.glCreateProgram id) rfl pre hq, fun h0 => absurd rfl h0, fun _ => ?_⟩
    exact ⟨fun s _ => not_quiet_not_mem (Call.glDeleteShader s) rfl pre hq, Or.inl hcr⟩
  · refine ⟨?_, fun _ => ⟨hnl, ?_, ?_, ?_⟩, fun h0 => absurd h0 hne⟩
    · intro id hmem
      rcases List.mem_append.mp hmem with hm | hm
      · exact not_quiet_not_mem (Call.glCreateProgram id) rfl pre hq hm
      · simp at hm
    · rw [← List.append_assoc, live_shaders_append, hlive]
      rfl
    · intro s hmem
      rcases List.mem_append.mp hmem with hm | hm
      · exact not_quiet_not_mem (Call.glDeleteShader s) rfl pre hq hm
      · simp at hm
    · rw [created_shaders_append, hcr]; rfl
  · refine ⟨?_, fun h0 => absurd rfl h0,
      fun _ => ⟨?_, Or.inr ⟨env.gen_name (hist ++ pre), ?_⟩⟩⟩
    · intro id hmem
      rcases List.mem_append.mp hmem with hm | hm
      · exact not_quiet_not_mem (Call.glCreateProgram id) rfl pre hq hm
      · simp at hm
    · intro s hs hmem
      rcases List.mem_append.mp hmem with hm | hm
      · exact not_quiet_not_mem (Call.glDeleteShader s) rfl pre hq hm
      · simp at hm
        subst hm
        exact hnl hs
    · rw [created_shaders_append, hcr]; rfl

theorem count_delete_map (shaders : List Nat) (hnd : shaders.Nodup) (s : Nat)
    (hs : s ∈ shaders) :
    (shaders.map Call.glDeleteShader).count (Call.glDeleteShader s) = 1 := by
  have hinj : Function.Injective Call.glDeleteShader := by
    intro a b hab
    cases hab
    rfl
  rw [List.count_map_of_injective shaders Call.glDeleteShader hinj s]
  exact List.count_eq_one_of_mem hnd hs

theorem created_shaders_map_delete (shaders : List Nat) :
    created_shaders (shaders.map Call.glDeleteShader) = [] := by
  induction shaders with
  | nil => rfl
  | cons a t ih => simp [created_shaders]

/-- The compile loop of `nu_create_program` when the paths of `pre` compile and the next
path `pf` does not: the loop returns early, whatever follows `pf`, after deleting once each
shader it holds. -/
theorem compile_shaders_failure (env : Env) (hist : List Call)
    (hfresh : ∀ h, env.gen_name h ≠ 0 ∧ env.gen_name h ∉ live_shaders h)
    (pf : Option CharPtr)
    (hfail : ∀ h, ∃ r, nu_compile_shader env h pf = .ok r ∧ r.1 = 0) :
    ∀ (pre : List (Option CharPtr)) (shaders : List Nat) (tr : List Call),
      (∀ a ∈ pre, ∀ h, ∃ r, nu_compile_shader env h a = .ok r ∧ r.1 ≠ 0) →
      shaders.Nodup →
      (∀ s ∈ shaders, s ∈ live_shaders (hist ++ tr)) →
      (∀ s, Call.glDeleteShader s ∉ tr) →
      (∀ id, Call.glCreateProgram id ∉ tr) →
      created_shaders tr = shaders →
      ∃ all out, all.length = shaders.length + pre.length
        ∧ (∀ post extra, compile_shaders env hist (pre.length + extra + 1)
              (pre ++ pf :: post) shaders tr = .ok (none, out))
        ∧ (∀ s ∈ all, out.count (Call.glDeleteShader s) = 1)
        ∧ (∀ id, Call.glCreateProgram id ∉ out)
        ∧ (created_shaders out = all ∨ ∃ x, created_shaders out = all ++ [x]) := by
  intro pre
  induction pre with
  | nil =>
    intro shaders tr _ hnd hlive hdel hprog hcr
    obtain ⟨r, hr, hr0⟩ := hfail (hist ++ tr)
    obtain ⟨e1, _, e3⟩ := nu_compile_shader_effect env hfresh (hist ++ tr) pf r hr
    obtain ⟨e3a, e3b⟩ := e3 hr0
    refine ⟨shaders, tr ++ r.2 ++ [Call.log "nu_create_program"]
      ++ shaders.map Call.glDeleteShader, by simp, ?_, ?_, ?_, ?_⟩
    · intro post extra
      simp only [List.length_nil, Nat.zero_add, List.nil_append, compile_shaders, va_arg,
        List.headD_cons, hr, hr0, if_true]
    · intro s hs
      have h1 : tr.count (Call.glDeleteShader s) = 0 :=
        List.count_eq_zero_of_not_mem (hdel s)
      have h2 : r.2.count (Call.glDeleteShader s) = 0 :=
        List.count_eq_zero_of_not_mem (e3a s (hlive s hs))
      have h3 : [Call.log "nu_create_program"].count (Call.glDeleteShader s) = 0 :=
        List.count_eq_zero_of_not_mem (by simp)
      rw [List.count_append, List.count_append, List.count_append, h1, h2, h3,
        count_delete_map shaders hnd s hs]
    · intro id hmem
      simp only [List.mem_append, List.mem_singleton, List.mem_map] at hmem
      rcases hmem with ((hm | hm) | hm) | hm
      · exact hprog id hm
      · exact e1 id hm
      · cases hm
      · obtain ⟨_, _, hm⟩ := hm
        cases hm
    · have hc : created_shaders (tr ++ r.2 ++ [Call.log "nu_create_program"]
          ++ shaders.map Call.glDeleteShader) = shaders ++ created_shaders r.2 := by
        rw [created_shaders_append, created_shaders_append, created_shaders_append, hcr,
          created_shaders_map_delete]
        simp [created_shaders]
      rcases e3b with h0 | ⟨x, hx⟩
      · left; rw [hc, h0, List.append_nil]
      · right; exact ⟨x, by rw [hc, hx]⟩
  | cons a ps ih =>
    intro shaders tr hok hnd hlive hdel hprog hcr
    obtain ⟨r, hr, hr0⟩ := hok a (List.mem_cons_self a ps) (hist ++ tr)
    obtain ⟨e1, e2, _⟩ := nu_compile_shader_effect env hfresh (hist ++ tr) a r hr
    obtain ⟨e2a, e2b, e2c, e2d⟩ := e2 hr0
    have hnotin : r.1 ∉ shaders := fun hin => e2a (hlive r.1 hin)
    obtain ⟨all, out, hlen, hrun, hcount, hnoprog, hcreated⟩ :=
      ih (shaders ++ [r.1]) (tr ++ r.2)
        (fun b hb => hok b (List.mem_cons_of_mem a hb))
        (by
          rw [List.nodup_append]
          refine ⟨hnd, List.nodup_singleton _, ?_⟩
          intro s hs hs2
          rw [List.mem_singleton] at hs2
          subst hs2
          exact hnotin hs)
        (by
          intro s hs
          rw [← List.append_assoc, e2b]
          rcases List.mem_append.mp hs with h1 | h1
          · exact List.mem_cons_of_mem _ (hlive s h1)
          · rw [List.mem_singleton] at h1
            subst h1
            exact List.mem_cons_self _ _)
        (by
          intro s hmem
          rcases List.mem_append.mp hmem with h1 | h1
          · exact hdel s h1
          · exact e2c s h1)
        (by
          intro id hmem
          rcases List.mem_append.mp hmem with h1 | h1
          · exact hprog id h1
          · exact e1 id h1)
        (by rw [created_shaders_append, hcr, e2d])
    refine ⟨all, out, ?_, ?_, hcount, hnoprog, hcreated⟩
    · rw [hlen]; simp only [List.length_append, List.length_cons, List.length_nil]; omega
    · intro post extra
      have hcnt : (a :: ps).length + extra + 1 = (ps.length + extra + 1) + 1 := by
        simp only [List.length_cons]; omega
      rw [hcnt]
      simp only [List.cons_append, compile_shaders, va_arg, List.headD_cons, List.tail_cons,
        hr, if_neg hr0]
      exact hrun post extra

/-- C7: when the paths before index `k` compile and the path at index `k` does not (with
`glCreateShader` never handing out 0 or the name of a live shader) `nu_create_program`
returns the program handle 0 whatever paths follow index `k`; it issues the same calls
whatever those paths are, creates no program object, creates at most `k + 1` shader
objects, the first `k` of which are the shaders compiled before the failure, and deletes
each of these `k` shader objects exactly once. -/
theorem nu_create_program_compile_failure (env : Env) (hist : List Call)
    (pre : List (Option CharPtr)) (pf : Option CharPtr)
    (hfresh : ∀ h, env.gen_name h ≠ 0 ∧ env.gen_name h ∉ live_shaders h)
    (hok : ∀ a ∈ pre, ∀ h, ∃ r, nu_compile_shader env h a = .ok r ∧ r.1 ≠ 0)
    (hfail : ∀ h, ∃ r, nu_compile_shader env h pf = .ok r ∧ r.1 = 0) :
    ∃ shaders tr, shaders.length = pre.length
      ∧ (∀ post, nu_create_program env hist (pre.length + post.length + 1)
            (pre ++ pf :: post) = .ok ({ shader_program := 0 }, tr))
      ∧ (∀ s ∈ shaders, tr.count (Call.glDeleteShader s) = 1)
      ∧ (∀ id, Call.glCreateProgram id ∉ tr)
      ∧ (created_shaders tr = shaders ∨ ∃ x, created_shaders tr = shaders ++ [x]) := by
  obtain ⟨all, out, hlen, hrun, hcount, hnoprog, hcreated⟩ :=
    compile_shaders_failure env hist hfresh pf hfail pre [] [] hok List.nodup_nil
      (by simp) (by simp) (by simp) rfl
  refine ⟨all, out, by simpa using hlen, ?_, hcount, hnoprog, hcreated⟩
  intro post
  simp only [nu_create_program, hrun post post.length]

theorem le_foldr_max (l : List Nat) (x : Nat) (hx : x ∈ l) : x ≤ l.foldr max 0 := by
  induction l with
  | nil => cases hx
  | cons a t ih =>
    rw [List.foldr_cons]
    rcases List.mem_cons.mp hx with rfl | h
    · exact Nat.le_max_left _ _
    · exact Nat.le_trans (ih h) (Nat.le_max_right _ _)

theorem live_shaders_created (s : Nat) :
    ∀ (h : List Call) (live : List Nat), s ∈ h.foldl live_step live →
      s ∈ live ∨ ∃ c ∈ h, created_name c = s := by
  intro h
  induction h with
  | nil => intro live hs; exact Or.inl hs
  | cons c t ih =>
    intro live hs
    rw [List.foldl_cons] at hs
    rcases ih _ hs with h1 | ⟨d, hd, hds⟩
    · cases c
      case glCreateShader ty id =>
        rcases List.mem_cons.mp h1 with rfl | h2
        · exact Or.inr ⟨_, List.mem_cons_self _ _, rfl⟩
        · exact Or.inl h2
      case glDeleteShader x =>
        exact Or.inl (List.mem_of_mem_filter h1)
      all_goals exact Or.inl h1
    · exact Or.inr ⟨d, List.mem_cons_of_mem _ hd, hds⟩

/-- The names `env_shaders` hands out are never 0 and never the name of a live shader. -/
theorem env_shaders_fresh (h : List Call) :
    env_shaders.gen_name h ≠ 0 ∧ env_shaders.gen_name h ∉ live_shaders h := by
  refine ⟨Nat.succ_ne_zero _, ?_⟩
  intro hmem
  rcases live_shaders_created _ h [] hmem with h1 | ⟨c, hc, hcs⟩
  · cases h1
  · have hle : created_name c ≤ (h.map created_name).foldr max 0 :=
      le_foldr_max _ _ (List.mem_map_of_mem created_name hc)
    have hgen : env_shaders.gen_name h = (h.map created_name).foldr max 0 + 1 := rfl
    omega

theorem env_shaders_a_vert (h : List Call) :
    ∃ r, nu_compile_shader env_shaders h (some (CharPtr.ofString "a.vert")) = .ok r
      ∧ r.1 ≠ 0 :=
  ⟨(env_shaders.gen_name (h ++ [] ++ [Call.fopen "a.vert".toList]), _), rfl,
    Nat.succ_ne_zero _⟩

theorem env_shaders_b_frag (h : List Call) :
    ∃ r, nu_compile_shader env_shaders h (some (CharPtr.ofString "b.frag")) = .ok r
      ∧ r.1 = 0 :=
  ⟨(0, _), rfl, rfl⟩

theorem nu_create_program_compile_failure_witness :
    nu_create_program env_shaders [] 3
        [some (CharPtr.ofString "a.vert"), some (CharPtr.ofString "b.frag"),
         some (CharPtr.ofString "c.frag")]
      = .ok ({ shader_program := 0 },
          [Call.fopen "a.vert".toList,
           Call.glCreateShader GL_VERTEX_SHADER 1,
           Call.glShaderSource 1 "void main".toList,
           Call.glCompileShader 1,
           Call.glGetShaderiv 1,
           Call.fopen "b.frag".toList,
           Call.glCreateShader GL_FRAGMENT_SHADER 2,
           Call.glShaderSource 2 "bad".toList,
           Call.glCompileShader 2,
           Call.glGetShaderiv 2,
           Call.glGetShaderInfoLog 2,
           Call.log "nu_compile_shader",
           Call.glDeleteShader 2,
           Call.log "nu_create_program",
           Call.glDeleteShader 1])
    ∧ ∃ shaders tr, shaders.length = [some (CharPtr.ofString "a.vert")].length
      ∧ (∀ post, nu_create_program env_shaders []
            ([some (CharPtr.ofString "a.vert")].length + post.length + 1)
            ([some (CharPtr.ofString "a.vert")] ++ some (CharPtr.ofString "b.frag") :: post)
          = .ok ({ shader_program := 0 }, tr))
      ∧ (∀ s ∈ shaders, tr.count (Call.glDeleteShader s) = 1)
      ∧ (∀ id, Call.glCreateProgram id ∉ tr)
      ∧ (created_shaders tr = shaders ∨ ∃ x, created_shaders tr = shaders ++ [x]) :=
  ⟨by decide,
   nu_create_program_compile_failure env_shaders [] [some (CharPtr.ofString "a.vert")]
     (some (CharPtr.ofString "b.frag")) env_shaders_fresh
     (fun a ha h => by
       rw [List.mem_singleton] at ha
       subst ha
       exact env_shaders_a_vert h)
     env_shaders_b_frag⟩

/-! ### Appending after `nu_free_mesh` -/

theorem doubling_minimal (n j k : Nat) (hj : j = 0 ∨ 1024 * 2 ^ (j - 1) < n)
    (hk : n ≤ 1024 * 2 ^ k) : j ≤ k := by
  rcases hj with rfl | hlt
  · exact Nat.zero_le k
  · by_contra hcon
    have hle : k ≤ j - 1 := by omega
    have hpow : 2 ^ k ≤ 2 ^ (j - 1) := Nat.pow_le_pow_right (by decide) hle
    have : 1024 * 2 ^ k ≤ 1024 * 2 ^ (j - 1) := Nat.mul_le_mul_left 1024 hpow
    omega

/-- Appending a non-empty span to a mesh without buffer: the stale `bytes_added` is dropped,
a buffer of the least sufficient capacity `1024 * 2 ^ j` is produced and the span is at its
start. -/
theorem add_bytes_no_buffer (env : Env) (fuel : Nat) (m : nu_Mesh) (src : List Nat)
    (hfuel : 64 ≤ fuel) (hdata : m.data = none) (hn : 0 < src.length)
    (hov : 2 * src.length ≤ SIZE_MOD) :
    ∃ j out, nu_mesh_add_bytes env fuel (some m) (some src) src.length
        = .ok (some { m with data := some out, bytes_alloced := 1024 * 2 ^ j,
                             bytes_added := src.length })
      ∧ src.length ≤ 1024 * 2 ^ j
      ∧ (j = 0 ∨ 1024 * 2 ^ (j - 1) < src.length)
      ∧ out.take src.length = src := by
  obtain ⟨j, out, hrun, _, hfit, hmin, _, hcopy⟩ :=
    add_bytes_live env fuel
      { m with data := some (malloc env 1024), bytes_alloced := 1024, bytes_added := 0 }
      (malloc env 1024) src hfuel rfl (malloc_length env 1024) (Nat.zero_le _)
      (by show 0 < 1024; omega) (by simpa using hov) hn
  refine ⟨j, out, ?_, by simpa using hfit, by simpa using hmin, by simpa using hcopy⟩
  rw [add_bytes_null_data env fuel m src src.length (by omega) hdata, hrun]
  simp

/-- C11: for a mesh holding `L > 0` appended bytes and a non-null source span of `n > 0`
bytes (a span being an object, `n` is at most `PTRDIFF_MAX`), `nu_free_mesh` followed by
`nu_mesh_add_bytes` returns, and so does `nu_mesh_add_bytes` on a mesh fresh from
`nu_create_mesh`; both end with `bytes_added = n` (not `L + n`), with the same
`bytes_alloced`, which is the smallest `1024 * 2 ^ k` that is at least `n`, and with the
source bytes as the first `n` bytes of the buffer. -/
theorem nu_free_mesh_then_add_bytes (env : Env) (hist : List Call) (fuel : Nat)
    (m : nu_Mesh) (buf src : List Nat) (n N : Nat)
    (component_sizes component_counts component_types : List Nat)
    (hfuel : 64 ≤ fuel) (hdata : m.data = some buf) (hL : 0 < m.bytes_added)
    (hn : 0 < n) (hsrc : src.length = n) (hobj : n ≤ PTRDIFF_MAX) :
    ∃ m1 m2 out1 out2 k,
      nu_mesh_add_bytes env fuel (nu_free_mesh (some m)) (some src) n = .ok (some m1)
      ∧ nu_mesh_add_bytes env fuel
          (some (nu_create_mesh env hist N component_sizes component_counts
            component_types).1) (some src) n = .ok (some m2)
      ∧ m1.bytes_added = n ∧ m2.bytes_added = n
      ∧ m1.bytes_alloced = 1024 * 2 ^ k ∧ m2.bytes_alloced = 1024 * 2 ^ k
      ∧ n ≤ 1024 * 2 ^ k ∧ (∀ k2, n ≤ 1024 * 2 ^ k2 → k ≤ k2)
      ∧ m1.data = some out1 ∧ m2.data = some out2
      ∧ out1.take n = src ∧ out2.take n = src := by
  have _ := hdata
  have _ := hL
  have hov : 2 * n ≤ SIZE_MOD := by
    have h1 : PTRDIFF_MAX = 9223372036854775807 := by decide
    have h2 : SIZE_MOD = 18446744073709551616 := by decide
    omega
  subst hsrc
  obtain ⟨j1, out1, hrun1, hfit1, hmin1, hcopy1⟩ :=
    add_bytes_no_buffer env fuel { m with data := none, bytes_alloced := 0 } src hfuel rfl
      hn hov
  obtain ⟨j2, out2, hrun2, hfit2, hmin2, hcopy2⟩ :=
    add_bytes_no_buffer env fuel
      (nu_create_mesh env hist N component_sizes component_counts component_types).1 src
      hfuel rfl hn hov
  have hj : j2 = j1 :=
    Nat.le_antisymm (doubling_minimal _ _ _ hmin2 hfit1) (doubling_minimal _ _ _ hmin1 hfit2)
  subst hj
  exact ⟨_, _, out1, out2, j2, hrun1, hrun2, rfl, rfl, rfl, rfl, hfit1,
    fun k2 hk2 => doubling_minimal _ _ _ hmin1 hk2, rfl, rfl, hcopy1, hcopy2⟩

theorem nu_free_mesh_then_add_bytes_witness :
    small_mesh.data = some [1, 2, 3, 0, 0, 0, 0, 0] ∧ 0 < small_mesh.bytes_added
    ∧ nu_free_mesh (some small_mesh)
        = some { small_mesh with data := none, bytes_alloced := 0 }
    ∧ ∃ m1 m2 out1 out2 k,
      nu_mesh_add_bytes env0 64 (nu_free_mesh (some small_mesh)) (some [7, 8, 9, 10]) 4
        = .ok (some m1)
      ∧ nu_mesh_add_bytes env0 64 (some (nu_create_mesh env0 [] 1 [1] [1] [5121]).1)
          (some [7, 8, 9, 10]) 4 = .ok (some m2)
      ∧ m1.bytes_added = 4 ∧ m2.bytes_added = 4
      ∧ m1.bytes_alloced = 1024 * 2 ^ k ∧ m2.bytes_alloced = 1024 * 2 ^ k
      ∧ 4 ≤ 1024 * 2 ^ k ∧ (∀ k2, 4 ≤ 1024 * 2 ^ k2 → k ≤ k2)
      ∧ m1.data = some out1 ∧ m2.data = some out2
      ∧ out1.take 4 = [7, 8, 9, 10] ∧ out2.take 4 = [7, 8, 9, 10] :=
  ⟨rfl, by decide, rfl,
   nu_free_mesh_then_add_bytes env0 [] 64 small_mesh [1, 2, 3, 0, 0, 0, 0, 0] [7, 8, 9, 10]
     4 1 [1] [1] [5121] (by decide) rfl (by decide) (by decide) rfl (by decide)⟩

end NuGL
